import Mathlib

/-!
Verification of the bulk-selection and filter subsystem of the
ComfyUI-Lora-Manager front end (`BulkManager.js`, the two filter-manager
classes, and `createLoraCard`).

The JavaScript is shallowly embedded: the page-wide mutable state
(selection set, metadata cache, rendered cards, `localStorage`, toasts,
clipboard writes) becomes an explicit record threaded through the
operations.  JavaScript `Set`/`Map` become ordered duplicate-free lists /
association lists; dynamic JS values produced by `JSON.parse` become the
`JsonVal` inductive; thrown exceptions become `Except`/`Option` results or
an explicit "completed normally" flag.  The host builtins `JSON.parse` /
`JSON.stringify` are modelled by an executable JSON parser/printer over
`JsonVal`; JSON numbers are kept as exact decimal mantissa/exponent pairs
(faithful to the source for the short decimal literals that occur in
usage-tips data, where double rounding is not observable).
-/

/-- A JavaScript value as produced by `JSON.parse`.  Numbers are decimal
pairs `m * 10 ^ e`; objects are association lists in textual order. -/
inductive JsonVal where
  | null : JsonVal
  | bool (b : Bool) : JsonVal
  | num (m : Int) (e : Int) : JsonVal
  | str (s : String) : JsonVal
  | arr (elems : List JsonVal) : JsonVal
  | obj (fields : List (String × JsonVal)) : JsonVal

/-- JavaScript errors that the modelled code can throw. -/
inductive JsErr where
  | syntaxError : JsErr
  | typeError : JsErr

/-- JavaScript truthiness of a `JsonVal` (`NaN` cannot arise from JSON). -/
def JsonVal.truthy : JsonVal → Bool
  | .null => false
  | .bool b => b
  | .num m _ => m != 0
  | .str s => s != ""
  | .arr _ => true
  | .obj _ => true

/-- Is this value a JS array? -/
def JsonVal.isArray : JsonVal → Bool
  | .arr _ => true
  | _ => false

/-- JS property read `v[k]` for the property names used by the code:
`none` is JS `undefined`; reading a property of `null` throws a
`TypeError` (non-object non-null primitives yield `undefined`). -/
def jsGetField (v : JsonVal) (k : String) : Except JsErr (Option JsonVal) :=
  match v with
  | .null => .error .typeError
  | .obj fields => .ok (fields.lookup k)
  | _ => .ok none

/-- JS strict equality between an array element and a string. -/
def JsonVal.eqStr (v : JsonVal) (t : String) : Bool :=
  match v with
  | .str s => s == t
  | _ => false

/-- `v.includes(t)`: element search on arrays, substring search on
strings, `TypeError` otherwise. -/
def jsIncludes (v : JsonVal) (t : String) : Except JsErr Bool :=
  match v with
  | .arr xs => .ok (xs.any (·.eqStr t))
  | .str s => .ok (decide (t.data <:+: s.data))
  | _ => .error .typeError

/-- `v.push(str t)` (the only push the filter code performs). -/
def jsPushStr (v : JsonVal) (t : String) : Except JsErr JsonVal :=
  match v with
  | .arr xs => .ok (.arr (xs ++ [.str t]))
  | _ => .error .typeError

/-- `v.filter(x => x !== t)` with `t` a string. -/
def jsFilterNeStr (v : JsonVal) (t : String) : Except JsErr JsonVal :=
  match v with
  | .arr xs => .ok (.arr (xs.filter (fun x => !x.eqStr t)))
  | _ => .error .typeError

/-- `v.length` as the number JS would yield, when it yields one:
arrays and strings have a numeric length, other values give `undefined`
(modelled `none`; comparisons with `undefined` are false). -/
def jsLength : JsonVal → Option Nat
  | .arr xs => some xs.length
  | .str s => some s.length
  | _ => none

/-- `x > 0` where `x` may be `undefined`/`NaN` (then false). -/
def optGtZero : Option Nat → Bool
  | some n => n > 0
  | none => false

/-- `a + b` where either side may be `undefined` (giving `NaN`). -/
def optAdd : Option Nat → Option Nat → Option Nat
  | some a, some b => some (a + b)
  | _, _ => none

/-! ### The `JSON.stringify` model -/

/-- Hexadecimal digit character (lower case, as in a `\u00XX` escape). -/
def hexDigitChar (n : Nat) : Char :=
  if n < 10 then Char.ofNat ('0'.toNat + n) else Char.ofNat ('a'.toNat + n - 10)

/-- JSON string escaping of one character, as `JSON.stringify` performs it:
quote and backslash get escaped, the five named control characters use
their short escapes, other control characters use `\u00XX`. -/
def escChar (c : Char) : List Char :=
  if c = '"' then ['\\', '"']
  else if c = '\\' then ['\\', '\\']
  else if c = '\x08' then ['\\', 'b']
  else if c = '\x0c' then ['\\', 'f']
  else if c = '\n' then ['\\', 'n']
  else if c = '\x0d' then ['\\', 'r']
  else if c = '\t' then ['\\', 't']
  else if c.toNat < 32 then
    ['\\', 'u', '0', '0', hexDigitChar (c.toNat / 16), hexDigitChar (c.toNat % 16)]
  else [c]

/-- Escape a whole character sequence. -/
def escChars (cs : List Char) : List Char := cs.flatMap escChar

/-- A JSON string literal (both for `JSON.stringify` and for rebuilding). -/
def renderStr (s : String) : List Char := '"' :: escChars s.data ++ ['"']

/-- Drop the leading zero characters of a reversed digit string,
counting them (used to strip trailing zeros of a mantissa). -/
def stripZeroDigits : List Char → List Char × Nat
  | [] => ([], 0)
  | c :: rest =>
    if c = '0' then
      let p := stripZeroDigits rest
      (p.1, p.2 + 1)
    else (c :: rest, 0)

/-- Numeric value of a digit run. -/
def digitsToNat (ds : List Char) : Nat :=
  ds.foldl (fun acc c => 10 * acc + (c.toNat - '0'.toNat)) 0

/-- Decimal rendering of `m * 10 ^ e` the way JS prints such a number
(for the moderate-magnitude decimals this code handles): trailing
zeros of the mantissa are absorbed into the exponent first, so `80e-2`
prints `0.8`. -/
def renderNum (m : Int) (e : Int) : List Char :=
  if m = 0 then ['0']
  else if 0 ≤ e then (toString (m * 10 ^ e.toNat)).data
  else
    let p := stripZeroDigits (toString m.natAbs).data.reverse
    let e2 : Int := e + (p.2 : Int)
    let n := digitsToNat p.1.reverse
    if 0 ≤ e2 then
      (if m < 0 then ['-'] else []) ++ (toString (n * 10 ^ e2.toNat)).data
    else
      let k := (-e2).toNat
      let intPart := toString (n / 10 ^ k)
      let fracDigits := toString (n % 10 ^ k)
      let frac := List.replicate (k - fracDigits.length) '0' ++ fracDigits.data
      (if m < 0 then ['-'] else []) ++ intPart.data ++ '.' :: frac

mutual

/-- The `JSON.stringify` model on dynamic values. -/
def renderVal : JsonVal → List Char
  | .null => ("null" : String).data
  | .bool true => ("true" : String).data
  | .bool false => ("false" : String).data
  | .num m e => renderNum m e
  | .str s => renderStr s
  | .arr xs => '[' :: renderElems xs ++ [']']
  | .obj fs => '\x7b' :: renderMembers fs ++ ['\x7d']

/-- Comma-separated array elements. -/
def renderElems : List JsonVal → List Char
  | [] => []
  | [x] => renderVal x
  | x :: y :: rest => renderVal x ++ ',' :: renderElems (y :: rest)

/-- Comma-separated `"key":value` members. -/
def renderMembers : List (String × JsonVal) → List Char
  | [] => []
  | [(k, v)] => renderStr k ++ ':' :: renderVal v
  | (k, v) :: m :: rest => renderStr k ++ ':' :: renderVal v ++ ',' :: renderMembers (m :: rest)

end

/-! ### The `JSON.parse` model -/

/-- JSON whitespace. -/
def isJsonWs (c : Char) : Bool :=
  c == ' ' || c == '\t' || c == '\n' || c == '\x0d'

/-- Skip leading JSON whitespace. -/
def skipWs : List Char → List Char
  | [] => []
  | c :: rest => if isJsonWs c then skipWs rest else c :: rest

/-- Value of a hexadecimal digit character. -/
def hexVal (c : Char) : Option Nat :=
  if '0'.toNat ≤ c.toNat ∧ c.toNat ≤ '9'.toNat then some (c.toNat - '0'.toNat)
  else if 'a'.toNat ≤ c.toNat ∧ c.toNat ≤ 'f'.toNat then some (c.toNat - 'a'.toNat + 10)
  else if 'A'.toNat ≤ c.toNat ∧ c.toNat ≤ 'F'.toNat then some (c.toNat - 'A'.toNat + 10)
  else none

/-- Parse the body of a JSON string literal (after the opening quote),
returning the decoded characters and the input following the closing
quote. -/
def parseStrBody : List Char → Option (List Char × List Char)
  | [] => none
  | c :: rest =>
    if c = '"' then some ([], rest)
    else if c = '\\' then
      match rest with
      | [] => none
      | e :: rest2 =>
        if e = '"' then (parseStrBody rest2).map (fun p => ('"' :: p.1, p.2))
        else if e = '\\' then (parseStrBody rest2).map (fun p => ('\\' :: p.1, p.2))
        else if e = '/' then (parseStrBody rest2).map (fun p => ('/' :: p.1, p.2))
        else if e = 'b' then (parseStrBody rest2).map (fun p => ('\x08' :: p.1, p.2))
        else if e = 'f' then (parseStrBody rest2).map (fun p => ('\x0c' :: p.1, p.2))
        else if e = 'n' then (parseStrBody rest2).map (fun p => ('\n' :: p.1, p.2))
        else if e = 'r' then (parseStrBody rest2).map (fun p => ('\x0d' :: p.1, p.2))
        else if e = 't' then (parseStrBody rest2).map (fun p => ('\t' :: p.1, p.2))
        else if e = 'u' then
          match rest2 with
          | h1 :: h2 :: h3 :: h4 :: rest3 =>
            match hexVal h1, hexVal h2, hexVal h3, hexVal h4 with
            | some d1, some d2, some d3, some d4 =>
              (parseStrBody rest3).map
                (fun p => (Char.ofNat (((d1 * 16 + d2) * 16 + d3) * 16 + d4) :: p.1, p.2))
            | _, _, _, _ => none
          | _ => none
        else none
    else (parseStrBody rest).map (fun p => (c :: p.1, p.2))

/-- Split off a run of decimal digits. -/
def takeDigits : List Char → List Char × List Char
  | [] => ([], [])
  | c :: rest =>
    if c.isDigit then
      let p := takeDigits rest
      (c :: p.1, p.2)
    else ([], c :: rest)

/-- Parse a JSON number into its decimal mantissa/exponent form. -/
def parseNumber (input : List Char) : Option (JsonVal × List Char) :=
  let (neg, afterSign) :=
    match input with
    | '-' :: rest => (true, rest)
    | _ => (false, input)
  let (intDs, afterInt) := takeDigits afterSign
  if intDs.isEmpty then none
  else
    let (fracDs, afterFrac) :=
      match afterInt with
      | '.' :: rest => takeDigits rest
      | _ => ([], afterInt)
    if afterInt ≠ [] ∧ afterInt.head? = some '.' ∧ fracDs.isEmpty then none
    else
      let afterFrac := if afterInt.head? = some '.' then afterFrac else afterInt
      let expPart : (List Char × List Char) × Bool :=
        match afterFrac with
        | 'e' :: '+' :: rest => (takeDigits rest, true)
        | 'E' :: '+' :: rest => (takeDigits rest, true)
        | 'e' :: '-' :: rest => (takeDigits rest, false)
        | 'E' :: '-' :: rest => (takeDigits rest, false)
        | 'e' :: rest => (takeDigits rest, true)
        | 'E' :: rest => (takeDigits rest, true)
        | _ => (([], afterFrac), true)
      let expDs := expPart.1.1
      let rest2 := expPart.1.2
      let expNonneg := expPart.2
      if (afterFrac.head? = some 'e' ∨ afterFrac.head? = some 'E') ∧ expDs.isEmpty then
        none
      else
        let mantissa : Int :=
          (if neg then -1 else 1) * (digitsToNat (intDs ++ fracDs) : Int)
        let expSign : Int := if expNonneg then 1 else -1
        let e : Int := expSign * (digitsToNat expDs : Int) - (fracDs.length : Int)
        some (.num mantissa e, rest2)

mutual

/-- `JSON.parse` value parser, fuel-bounded (the fuel strictly exceeds
the input length at the top-level entry, so it never runs out). -/
def parseVal : Nat → List Char → Option (JsonVal × List Char)
  | 0, _ => none
  | fuel + 1, input =>
    match skipWs input with
    | [] => none
    | c :: rest =>
      if c = '"' then
        (parseStrBody rest).map (fun p => (.str (String.mk p.1), p.2))
      else if c = '\x7b' then
        match skipWs rest with
        | '\x7d' :: rest2 => some (.obj [], rest2)
        | other => (parseMembers fuel other).map (fun p => (.obj p.1, p.2))
      else if c = '[' then
        match skipWs rest with
        | ']' :: rest2 => some (.arr [], rest2)
        | other => (parseElems fuel other).map (fun p => (.arr p.1, p.2))
      else if c = 't' then
        match rest with
        | 'r' :: 'u' :: 'e' :: rest2 => some (.bool true, rest2)
        | _ => none
      else if c = 'f' then
        match rest with
        | 'a' :: 'l' :: 's' :: 'e' :: rest2 => some (.bool false, rest2)
        | _ => none
      else if c = 'n' then
        match rest with
        | 'u' :: 'l' :: 'l' :: rest2 => some (.null, rest2)
        | _ => none
      else if c = '-' ∨ c.isDigit then parseNumber (c :: rest)
      else none

/-- One or more comma-separated array elements followed by `]`. -/
def parseElems : Nat → List Char → Option (List JsonVal × List Char)
  | 0, _ => none
  | fuel + 1, input =>
    match parseVal fuel input with
    | none => none
    | some (v, rest) =>
      match skipWs rest with
      | ',' :: rest2 => (parseElems fuel rest2).map (fun p => (v :: p.1, p.2))
      | ']' :: rest2 => some ([v], rest2)
      | _ => none

/-- One or more comma-separated `"key":value` members followed by `}`. -/
def parseMembers : Nat → List Char → Option (List (String × JsonVal) × List Char)
  | 0, _ => none
  | fuel + 1, input =>
    match skipWs input with
    | '"' :: rest =>
      match parseStrBody rest with
      | none => none
      | some (key, rest2) =>
        match skipWs rest2 with
        | ':' :: rest3 =>
          match parseVal fuel rest3 with
          | none => none
          | some (v, rest4) =>
            match skipWs rest4 with
            | ',' :: rest5 =>
              (parseMembers fuel rest5).map (fun p => ((String.mk key, v) :: p.1, p.2))
            | '\x7d' :: rest5 => some ([(String.mk key, v)], rest5)
            | _ => none
        | _ => none
    | _ => none

end

/-- The `JSON.parse` model: `none` is a thrown `SyntaxError`. -/
def jsonParse (s : String) : Option JsonVal :=
  match parseVal (s.length + 1) s.data with
  | some (v, rest) => if skipWs rest = [] then some v else none
  | none => none

mutual

/-- String conversion of a dynamic value as JS template interpolation
performs it (`String(v)`). -/
def jsToString : JsonVal → String
  | .null => "null"
  | .bool true => "true"
  | .bool false => "false"
  | .num m e => String.mk (renderNum m e)
  | .str s => s
  | .arr xs => jsToStringElems xs
  | .obj _ => "[object Object]"

/-- `Array.prototype.join(",")` as used by `String(array)`; a `null`
element joins as the empty string. -/
def jsToStringElems : List JsonVal → String
  | [] => ""
  | [.null] => ""
  | [x] => jsToString x
  | .null :: y :: rest => "," ++ jsToStringElems (y :: rest)
  | x :: y :: rest => jsToString x ++ "," ++ jsToStringElems (y :: rest)

end

/-! ## BulkManager (`static/js/managers/BulkManager.js`)

The page state relevant to bulk selection: the rendered `.lora-card`
elements, `state.selectedLoras` (a JS `Set`, modelled as an ordered
duplicate-free list), `state.loraMetadataCache` (a JS `Map`, modelled as
an association list with in-place update), the selected-count indicator,
the thumbnail strip, and the observable effects (toast notifications and
clipboard writes).  The `selectedCount` element and the bulk panel exist
in the page, as in the served template. -/

/-- Snapshot stored in `state.loraMetadataCache` (BulkManager.js:119-125). -/
structure LoraMetadata where
  fileName : String
  usageTips : String
  previewUrl : String
  isVideo : Bool
  modelName : String
deriving Repr, DecidableEq

/-- A rendered `.lora-card` element: its dataset attributes, its
`selected` CSS class, and its preview media (`img`/`video source`). -/
structure CardData where
  filepath : String
  file_name : String
  usage_tips : String
  name : String
  selected : Bool
  imgSrc : Option String
  videoSrc : Option String
deriving Repr, DecidableEq

/-- The bulk-selection slice of page state, plus observable effects. -/
structure BulkState where
  cards : List CardData
  selectedLoras : List String
  loraMetadataCache : List (String × LoraMetadata)
  isStripVisible : Bool
  stripPresent : Bool
  stripVisibleClass : Bool
  thumbnails : List String
  countText : String
  caretVisible : Bool
  caretDown : Bool
  toasts : List (String × String)
  clipboardWrites : List String
deriving Repr, DecidableEq

/-- JS `Set.add`: append if absent (insertion order preserved). -/
def jsSetAdd (l : List String) (x : String) : List String :=
  if l.contains x then l else l ++ [x]

/-- JS `Set.delete`. -/
def jsSetDelete (l : List String) (x : String) : List String :=
  l.filter (· ≠ x)

/-- JS `Map.set`: update in place if the key exists, else append. -/
def mapSet (m : List (String × LoraMetadata)) (k : String) (v : LoraMetadata) :
    List (String × LoraMetadata) :=
  match m with
  | [] => [(k, v)]
  | (k1, v1) :: rest => if k1 = k then (k, v) :: rest else (k1, v1) :: mapSet rest k v

/-- The card a filepath refers to (cards are keyed by `data-filepath`). -/
def findCard (cards : List CardData) (fp : String) : Option CardData :=
  cards.find? (fun c => c.filepath == fp)

/-- Set the `selected` class on the (first) card with the given filepath,
modelling a class mutation on that DOM element. -/
def setCardSelected (cards : List CardData) (fp : String) (b : Bool) : List CardData :=
  match cards with
  | [] => []
  | c :: rest =>
    if c.filepath == fp then { c with selected := b } :: rest
    else c :: setCardSelected rest fp b

/-- `getCardPreviewUrl` (BulkManager.js:137-141). -/
def getCardPreviewUrl (c : CardData) : String :=
  match c.imgSrc with
  | some u => u
  | none =>
    match c.videoSrc with
    | some u => u
    | none => "/loras_static/images/no-preview.png"

/-- `isCardPreviewVideo` (BulkManager.js:144-146); the video element is
modelled by the presence of its source. -/
def isCardPreviewVideo (c : CardData) : Bool :=
  c.videoSrc.isSome

/-- The metadata snapshot taken from a card on selection
(BulkManager.js:119-125). -/
def cardMetadata (c : CardData) : LoraMetadata :=
  { fileName := c.file_name
    usageTips := c.usage_tips
    previewUrl := getCardPreviewUrl c
    isVideo := isCardPreviewVideo c
    modelName := c.name }

/-- `updateSelectedCount` (tag `true`) and `hideThumbnailStrip` (tag
`false`) call each other: `updateSelectedCount` calls
`hideThumbnailStrip` whenever the selection is empty
(BulkManager.js:102-104), and `hideThumbnailStrip` calls
`updateSelectedCount` whenever the strip element is in the DOM
(BulkManager.js:255-260) — the strip is only removed from the DOM by a
`setTimeout` scheduled after that inner call returns.  The recursion is
therefore unbounded when the selection is empty and the strip is
present; the fuel models the JS call stack, and a `false` flag is a
stack-overflow exception unwinding (skipping the remainder of every
frame, in particular the deferred strip removal). -/
def stripSync : Nat → Bool → BulkState → BulkState × Bool
  | 0, _, s => (s, false)
  | fuel + 1, true, s =>
    let s1 := { s with
      countText := toString s.selectedLoras.length ++ " selected "
      caretDown := s.isStripVisible
      caretVisible := s.selectedLoras.length > 0 }
    if s1.selectedLoras.isEmpty then stripSync fuel false s1 else (s1, true)
  | fuel + 1, false, s =>
    if s.stripPresent then
      let s1 := { s with stripVisibleClass := false, isStripVisible := false }
      let r := stripSync fuel true s1
      if r.2 then ({ r.1 with stripPresent := false }, true) else r
    else (s, true)

/-- `updateSelectedCount` (BulkManager.js:87-106). -/
def updateSelectedCount (fuel : Nat) (s : BulkState) : BulkState × Bool :=
  stripSync fuel true s

/-- `hideThumbnailStrip` (BulkManager.js:253-269). -/
def hideThumbnailStrip (fuel : Nat) (s : BulkState) : BulkState × Bool :=
  stripSync fuel false s

/-- `updateThumbnailStrip` (BulkManager.js:271-319): rebuilds one
thumbnail per selected filepath that has a cache entry, in selection
order; a no-op when the strip container is absent. -/
def updateThumbnailStrip (s : BulkState) : BulkState :=
  if s.stripPresent then
    let ts := s.selectedLoras.filter (fun fp => (s.loraMetadataCache.lookup fp).isSome)
    { s with thumbnails := ts }
  else s

/-- The tail of `toggleCardSelection` (BulkManager.js:128-133): run
`updateSelectedCount`, then refresh the thumbnail strip when it is
visible; a stack overflow inside `updateSelectedCount` skips the
refresh. -/
def toggleFinish (fuel : Nat) (s : BulkState) : BulkState × Bool :=
  let r := updateSelectedCount fuel s
  if r.2 then
    (if r.1.isStripVisible then updateThumbnailStrip r.1 else r.1, true)
  else r

/-- `toggleCardSelection` (BulkManager.js:108-134), invoked with the
rendered card whose `data-filepath` is `fp`; a call on a filepath with
no rendered card cannot arise and is a no-op here. -/
def toggleCardSelection (fuel : Nat) (s : BulkState) (fp : String) : BulkState × Bool :=
  match findCard s.cards fp with
  | none => (s, true)
  | some card =>
    let s1 :=
      if card.selected then
        { s with
          cards := setCardSelected s.cards fp false
          selectedLoras := jsSetDelete s.selectedLoras fp }
      else
        { s with
          cards := setCardSelected s.cards fp true
          selectedLoras := jsSetAdd s.selectedLoras fp
          loraMetadataCache := mapSet s.loraMetadataCache fp (cardMetadata card) }
    toggleFinish fuel s1

/-- `clearSelection` (BulkManager.js:76-85). -/
def clearSelection (fuel : Nat) (s : BulkState) : BulkState × Bool :=
  let s1 := { s with
    cards := s.cards.map (fun c => { c with selected := false })
    selectedLoras := [] }
  let r := updateSelectedCount fuel s1
  if r.2 then hideThumbnailStrip fuel r.1 else r

/-- The strength used in a copied token: `JSON.parse(usageTips || '{}')`
followed by `.strength || 1` (BulkManager.js:187-188).  A thrown
`SyntaxError` (unparseable non-empty hint) or `TypeError` (hint parsing
to `null`) propagates. -/
def strengthFromTips (tips : String) : Except JsErr JsonVal :=
  match jsonParse (if tips = "" then "\x7b\x7d" else tips) with
  | none => .error .syntaxError
  | some v => do
    let sv ← jsGetField v "strength"
    .ok (match sv with
      | some x => if x.truthy then x else .num 1 0
      | none => .num 1 0)

/-- The loop of `copyAllLorasSyntax` (BulkManager.js:183-194): walk the
selection in order, building the token list and the missing-metadata
list. -/
def buildSyntaxes (sel : List String) (cache : List (String × LoraMetadata)) :
    Except JsErr (List String × List String) :=
  match sel with
  | [] => .ok ([], [])
  | fp :: rest =>
    match cache.lookup fp with
    | some md => do
      let strength ← strengthFromTips md.usageTips
      let p ← buildSyntaxes rest cache
      .ok (("<lora:" ++ md.fileName ++ ":" ++ jsToString strength ++ ">") :: p.1, p.2)
    | none => do
      let p ← buildSyntaxes rest cache
      .ok (p.1, fp :: p.2)

/-- `copyAllLorasSyntax` (BulkManager.js:173-214).  The clipboard
collaborator is modelled as succeeding; an `Except.error` is the async
function rejecting (uncaught `JSON.parse`/property `TypeError`), in
which case no toast is shown and no write happens. -/
def copyAllLorasSyntax (s : BulkState) : Except JsErr BulkState :=
  if s.selectedLoras.length = 0 then
    .ok { s with toasts := s.toasts ++ [("No LoRAs selected", "warning")] }
  else do
    let p ← buildSyntaxes s.selectedLoras s.loraMetadataCache
    let s1 :=
      if p.2.length > 0 then
        { s with toasts := s.toasts ++
            [("Missing data for " ++ toString p.2.length ++ " LoRAs", "warning")] }
      else s
    if p.1.length = 0 then
      .ok { s1 with toasts := s1.toasts ++ [("No valid LoRAs to copy", "error")] }
    else
      .ok { s1 with
        clipboardWrites := s1.clipboardWrites ++ [String.intercalate ", " p.1]
        toasts := s1.toasts ++
          [("Copied " ++ toString p.1.length ++ " LoRA syntaxes to clipboard", "success")] }

/-! ## FilterManager (`src/unnamed/part_001`) and
RecipeFilterManager (`src/unnamed/part_000`)

One `FilterManager` per listing context (`currentPage`): its
`this.filters` record, the shared page-state snapshot
(`pageState.filters`), `localStorage`, the rendered tag-toggle elements,
the active-count indicator, the filter button, and the reload
collaborators (`loadMoreLoras` / `recipeManager.loadRecipes` /
`checkpointManager.loadCheckpoints`), recorded as a list of reload
events.  The two filter fields keep their dynamic JS type (`JsonVal`)
because `loadFiltersFromStorage` can assign non-array values to them. -/

/-- A rendered filter-toggle element: its `data-tag`/`data-baseModel`
value and its `active` CSS class. -/
structure TagEl where
  tag : String
  active : Bool
deriving Repr, DecidableEq

/-- The two-field filter record `this.filters`. -/
structure FiltersV where
  baseModel : JsonVal
  tags : JsonVal

/-- The constructor literal `{ baseModel: [], tags: [] }`. -/
def emptyFiltersV : FiltersV := ⟨.arr [], .arr []⟩

/-- A well-typed filter record built from two tag lists. -/
def mkFilters (bm tags : List String) : FiltersV :=
  ⟨.arr (bm.map .str), .arr (tags.map .str)⟩

/-- The `FilterManager` slice of page state plus observable effects. -/
structure FMState where
  currentPage : String
  filters : FiltersV
  pageFilters : Option FiltersV
  storage : List (String × String)
  reloads : List String
  toasts : List (String × String)
  filterButtonActive : Bool
  activeCountDisplay : Option String
  hasRecipeManager : Bool
  hasCheckpointManager : Bool
  tagEls : List TagEl
  baseModelEls : List TagEl

/-- `localStorage.setItem`. -/
def storeSet (st : List (String × String)) (k v : String) : List (String × String) :=
  match st with
  | [] => [(k, v)]
  | (k1, v1) :: rest => if k1 = k then (k, v) :: rest else (k1, v1) :: storeSet rest k v

/-- `localStorage.removeItem`. -/
def storeRemove (st : List (String × String)) (k : String) : List (String × String) :=
  st.filter (fun p => p.1 ≠ k)

/-- `JSON.stringify(this.filters)`: the two fields in declaration order. -/
def stringifyFilters (f : FiltersV) : String :=
  String.mk (renderVal (.obj [("baseModel", f.baseModel), ("tags", f.tags)]))

/-- `hasActiveFilters` (part_001:375-377). -/
def hasActiveFilters (f : FiltersV) : Bool :=
  optGtZero (jsLength f.baseModel) || optGtZero (jsLength f.tags)

/-- `updateActiveFiltersCount` (part_001:252-263): shows the total when
positive, hides the indicator otherwise (a `NaN` total is not `> 0`). -/
def updateActiveFiltersCount (s : FMState) : FMState :=
  match optAdd (jsLength s.filters.baseModel) (jsLength s.filters.tags) with
  | some n =>
    if n > 0 then { s with activeCountDisplay := some (toString n) }
    else { s with activeCountDisplay := none }
  | none => { s with activeCountDisplay := none }

/-- Plural suffix used in the apply-filters toast. -/
def pluralS (n : Nat) : String := if n > 1 then "s" else ""

/-- The summary-toast message built in `applyFilters` (part_001:289-299). -/
def filterMessage (f : FiltersV) : String :=
  let bc := jsLength f.baseModel
  let tc := jsLength f.tags
  if optGtZero bc && optGtZero tc then
    "Filtering by " ++ toString (bc.getD 0) ++ " base model" ++ pluralS (bc.getD 0) ++
      " and " ++ toString (tc.getD 0) ++ " tag" ++ pluralS (tc.getD 0)
  else if optGtZero bc then
    "Filtering by " ++ toString (bc.getD 0) ++ " base model" ++ pluralS (bc.getD 0)
  else if optGtZero tc then
    "Filtering by " ++ toString (tc.getD 0) ++ " tag" ++ pluralS (tc.getD 0)
  else ""

/-- The per-context reload dispatch of `applyFilters`/`clearFilters`
(part_001:276-283, 334-340); each invocation of a reload collaborator is
recorded. -/
def reloadFor (s : FMState) : FMState :=
  if s.currentPage = "recipes" ∧ s.hasRecipeManager then
    { s with reloads := s.reloads ++ ["recipes"] }
  else if s.currentPage = "loras" then
    { s with reloads := s.reloads ++ ["loras"] }
  else if s.currentPage = "checkpoints" ∧ s.hasCheckpointManager then
    { s with reloads := s.reloads ++ ["checkpoints"] }
  else s

/-- `applyFilters(showToastNotification)` (part_001:265-309). -/
def applyFilters (notify : Bool) (s : FMState) : FMState :=
  let key := s.currentPage ++ "_filters"
  let s1 := { s with storage := storeSet s.storage key (stringifyFilters s.filters) }
  let s2 := { s1 with pageFilters := some s1.filters }
  let s3 := reloadFor s2
  if hasActiveFilters s3.filters then
    let s4 := { s3 with filterButtonActive := true }
    if notify then { s4 with toasts := s4.toasts ++ [(filterMessage s4.filters, "success")] }
    else s4
  else
    let s4 := { s3 with filterButtonActive := false }
    if notify then { s4 with toasts := s4.toasts ++ [("Filters cleared", "info")] }
    else s4

/-- One pass of `updateTagSelections` over a toggle-element list:
`field.includes(el.tag)` decides each element's `active` class; a
`TypeError` (non-array non-string field) aborts the pass, leaving the
remaining elements untouched. -/
def syncEls (field : JsonVal) (els : List TagEl) : List TagEl × Option JsErr :=
  match els with
  | [] => ([], none)
  | el :: rest =>
    match jsIncludes field el.tag with
    | .error e => (el :: rest, some e)
    | .ok b =>
      let p := syncEls field rest
      ({ el with active := b } :: p.1, p.2)

/-- `updateTagSelections` (part_001:228-250): base-model toggles first,
then tag toggles. -/
def updateTagSelections (s : FMState) : FMState × Option JsErr :=
  let p1 := syncEls s.filters.baseModel s.baseModelEls
  let s1 := { s with baseModelEls := p1.1 }
  match p1.2 with
  | some e => (s1, some e)
  | none =>
    let p2 := syncEls s1.filters.tags s1.tagEls
    ({ s1 with tagEls := p2.1 }, p2.2)

/-- `parsed.field || []` of `loadFiltersFromStorage`: a missing or falsy
field becomes an empty array; any truthy value is adopted as-is. -/
def orEmptyArr (p : Option JsonVal) : JsonVal :=
  match p with
  | some v => if v.truthy then v else .arr []
  | none => .arr []

/-- `loadFiltersFromStorage` (part_001:345-373).  All throws inside the
`try` block are caught (only `console.error` runs), keeping whatever
mutations already happened. -/
def loadFiltersFromStorage (s : FMState) : FMState :=
  let key := s.currentPage ++ "_filters"
  match s.storage.lookup key with
  | none => s
  | some raw =>
    if raw = "" then s
    else
      match jsonParse raw with
      | none => s
      | some v =>
        match jsGetField v "baseModel", jsGetField v "tags" with
        | .ok bmv, .ok tgv =>
          let s1 := { s with filters := ⟨orEmptyArr bmv, orEmptyArr tgv⟩ }
          let s2 := { s1 with pageFilters := some s1.filters }
          let p := updateTagSelections s2
          match p.2 with
          | some _ => p.1
          | none =>
            let s3 := updateActiveFiltersCount p.1
            if hasActiveFilters s3.filters then { s3 with filterButtonActive := true }
            else s3
        | _, _ => s

/-- The click handler installed on a tag-filter element
(part_001:114-129): toggle the `active` class, then add/remove the tag
from `this.filters.tags` according to the new visual state, update the
count indicator, and `applyFilters(false)`.  A `TypeError` from a
non-array `tags` field rejects the async handler (second component). -/
def tagElClick (s : FMState) (idx : Nat) : FMState × Option JsErr :=
  match s.tagEls[idx]? with
  | none => (s, none)
  | some el =>
    let el1 := { el with active := !el.active }
    let s1 := { s with tagEls := s.tagEls.set idx el1 }
    if el1.active then
      match jsIncludes s1.filters.tags el.tag with
      | .error e => (s1, some e)
      | .ok true =>
        let s2 := updateActiveFiltersCount s1
        (applyFilters false s2, none)
      | .ok false =>
        match jsPushStr s1.filters.tags el.tag with
        | .error e => (s1, some e)
        | .ok newTags =>
          let s2 := { s1 with filters := { s1.filters with tags := newTags } }
          let s3 := updateActiveFiltersCount s2
          (applyFilters false s3, none)
    else
      match jsFilterNeStr s1.filters.tags el.tag with
      | .error e => (s1, some e)
      | .ok newTags =>
        let s2 := { s1 with filters := { s1.filters with tags := newTags } }
        let s3 := updateActiveFiltersCount s2
        (applyFilters false s3, none)

/-- The click handler installed on a base-model toggle element
(part_001:167-182), mirror image of `tagElClick` on the `baseModel`
field. -/
def baseModelElClick (s : FMState) (idx : Nat) : FMState × Option JsErr :=
  match s.baseModelEls[idx]? with
  | none => (s, none)
  | some el =>
    let el1 := { el with active := !el.active }
    let s1 := { s with baseModelEls := s.baseModelEls.set idx el1 }
    if el1.active then
      match jsIncludes s1.filters.baseModel el.tag with
      | .error e => (s1, some e)
      | .ok true =>
        let s2 := updateActiveFiltersCount s1
        (applyFilters false s2, none)
      | .ok false =>
        match jsPushStr s1.filters.baseModel el.tag with
        | .error e => (s1, some e)
        | .ok newBm =>
          let s2 := { s1 with filters := { s1.filters with baseModel := newBm } }
          let s3 := updateActiveFiltersCount s2
          (applyFilters false s3, none)
    else
      match jsFilterNeStr s1.filters.baseModel el.tag with
      | .error e => (s1, some e)
      | .ok newBm =>
        let s2 := { s1 with filters := { s1.filters with baseModel := newBm } }
        let s3 := updateActiveFiltersCount s2
        (applyFilters false s3, none)

/-- `clearFilters` (part_001:311-343). -/
def clearFilters (s : FMState) : FMState × Option JsErr :=
  let s1 := { s with filters := emptyFiltersV }
  let s2 := { s1 with pageFilters := some emptyFiltersV }
  let p := updateTagSelections s2
  match p.2 with
  | some e => (p.1, some e)
  | none =>
    let s3 := updateActiveFiltersCount p.1
    let s4 := { s3 with storage := storeRemove s3.storage (s3.currentPage ++ "_filters") }
    let s5 := { s4 with filterButtonActive := false }
    let s6 := reloadFor s5
    ({ s6 with toasts := s6.toasts ++ [("Filters cleared", "info")] }, none)

/-- The `FilterManager` constructor plus the synchronous part of
`initialize` (part_001:7-58): `this.filters = pageState.filters ||
{baseModel: [], tags: []}`, fresh (not yet fetched) toggle-element
containers, then `loadFiltersFromStorage()`.  The asynchronous tag /
base-model fetches and the panel event wiring happen later and are not
part of construction. -/
def constructFM (page : String) (pageFilters : Option FiltersV)
    (storage : List (String × String)) (hasRM hasCM : Bool) : FMState :=
  let s : FMState := {
    currentPage := page
    filters := pageFilters.getD emptyFiltersV
    pageFilters := pageFilters
    storage := storage
    reloads := []
    toasts := []
    filterButtonActive := false
    activeCountDisplay := none
    hasRecipeManager := hasRM
    hasCheckpointManager := hasCM
    tagEls := []
    baseModelEls := [] }
  loadFiltersFromStorage s

/-- The `RecipeFilterManager` slice of page state (part_000). -/
structure RFMState where
  filters : FiltersV
  storage : List (String × String)
  filterButtonActive : Bool
  activeCountDisplay : Option String
  tagEls : List TagEl
  baseModelEls : List TagEl

/-- `RecipeFilterManager.updateTagSelections` (part_000:193-215). -/
def rfmUpdateTagSelections (s : RFMState) : RFMState × Option JsErr :=
  let p1 := syncEls s.filters.baseModel s.baseModelEls
  let s1 := { s with baseModelEls := p1.1 }
  match p1.2 with
  | some e => (s1, some e)
  | none =>
    let p2 := syncEls s1.filters.tags s1.tagEls
    ({ s1 with tagEls := p2.1 }, p2.2)

/-- `RecipeFilterManager.loadFiltersFromStorage` (part_000:329-351),
reading the fixed key `recipeFilters`. -/
def rfmLoadFiltersFromStorage (s : RFMState) : RFMState :=
  match s.storage.lookup "recipeFilters" with
  | none => s
  | some raw =>
    if raw = "" then s
    else
      match jsonParse raw with
      | none => s
      | some v =>
        match jsGetField v "baseModel", jsGetField v "tags" with
        | .ok bmv, .ok tgv =>
          let s1 := { s with filters := ⟨orEmptyArr bmv, orEmptyArr tgv⟩ }
          let p := rfmUpdateTagSelections s1
          match p.2 with
          | some _ => p.1
          | none =>
            let s3 :=
              match optAdd (jsLength p.1.filters.baseModel) (jsLength p.1.filters.tags) with
              | some n =>
                if n > 0 then { p.1 with activeCountDisplay := some (toString n) }
                else { p.1 with activeCountDisplay := none }
              | none => { p.1 with activeCountDisplay := none }
            if hasActiveFilters s3.filters then { s3 with filterButtonActive := true }
            else s3
        | _, _ => s

/-- The `RecipeFilterManager` constructor plus the synchronous part of
its `initialize` (part_000:4-43): filters start empty, then
`loadFiltersFromStorage()`. -/
def constructRFM (storage : List (String × String)) : RFMState :=
  let s : RFMState := {
    filters := emptyFiltersV
    storage := storage
    filterButtonActive := false
    activeCountDisplay := none
    tagEls := []
    baseModelEls := [] }
  rfmLoadFiltersFromStorage s

/-- The invariant relating rendered cards' `selected` class to
SelectionSet membership: the card found for each filepath carries the
class exactly when the filepath is selected. -/
def selConsistent (s : BulkState) : Prop :=
  ∀ fp card, findCard s.cards fp = some card → card.selected = s.selectedLoras.contains fp

/-- A sequence of `toggleCardSelection` calls on rendered cards
(each click is a fresh event, so a stack overflow in one call's UI sync
does not stop later calls). -/
def toggleSeq (fuel : Nat) (s : BulkState) (ks : List String) : BulkState :=
  ks.foldl (fun t k => (toggleCardSelection fuel t k).1) s

/-! ### Concrete bulk-selection scenarios -/

/-- A rendered, unselected card with filepath `A`. -/
def cardAlpha : CardData :=
  { filepath := "A", file_name := "alpha.safetensors", usage_tips := "", name := "Alpha",
    selected := false, imgSrc := some "/a.png", videoSrc := none }

/-- A rendered, unselected card with filepath `B`. -/
def cardBeta : CardData :=
  { filepath := "B", file_name := "beta.safetensors", usage_tips := "", name := "Beta",
    selected := false, imgSrc := some "/b.png", videoSrc := none }

/-- A page with two rendered cards and nothing selected. -/
def bulkBase : BulkState :=
  { cards := [cardAlpha, cardBeta], selectedLoras := [], loraMetadataCache := [],
    isStripVisible := false, stripPresent := false, stripVisibleClass := false,
    thumbnails := [], countText := "", caretVisible := false, caretDown := false,
    toasts := [], clipboardWrites := [] }

/-- One selected card with the thumbnail strip shown. -/
def bulkStripShown : BulkState :=
  { bulkBase with
    cards := [{ cardAlpha with selected := true }, cardBeta]
    selectedLoras := ["A"]
    loraMetadataCache := [("A", cardMetadata { cardAlpha with selected := true })]
    isStripVisible := true
    stripPresent := true
    stripVisibleClass := true
    thumbnails := ["A"] }

/-- Cached metadata for the C2 scenario: display name `foo`, usage hint
encoding strength 0.8. -/
def mdFoo : LoraMetadata :=
  { fileName := "foo", usageTips := "\x7b\"strength\":0.8\x7d", previewUrl := "/a.png",
    isVideo := false, modelName := "Foo" }

/-- SelectionSet {A, B} with a cache entry only for A. -/
def bulkTwoSel : BulkState :=
  { bulkBase with selectedLoras := ["A", "B"], loraMetadataCache := [("A", mdFoo)] }

/-- Cached metadata whose usage hint is absent. -/
def mdBar : LoraMetadata :=
  { fileName := "bar", usageTips := "", previewUrl := "/a.png",
    isVideo := false, modelName := "Bar" }

/-- One selected key whose cache entry has no usage hint. -/
def bulkAbsentHint : BulkState :=
  { bulkBase with selectedLoras := ["A"], loraMetadataCache := [("A", mdBar)] }

/-- Cached metadata whose usage hint is a non-empty unparseable string. -/
def mdOops : LoraMetadata :=
  { fileName := "foo", usageTips := "oops", previewUrl := "/a.png",
    isVideo := false, modelName := "Foo" }

/-- One selected key whose cache entry has an unparseable usage hint. -/
def bulkBadHint : BulkState :=
  { bulkBase with selectedLoras := ["A"], loraMetadataCache := [("A", mdOops)] }

/-- One selected key with no cache entry at all. -/
def bulkAllMissing : BulkState :=
  { bulkBase with selectedLoras := ["X"] }

/-- Cached metadata whose usage hint stores strength exactly 0. -/
def mdZero : LoraMetadata :=
  { fileName := "zed", usageTips := "\x7b\"strength\":0\x7d", previewUrl := "/a.png",
    isVideo := false, modelName := "Zed" }

/-- One selected key whose cached strength is the number 0. -/
def bulkZeroStrength : BulkState :=
  { bulkBase with selectedLoras := ["A"], loraMetadataCache := [("A", mdZero)] }

/-- Cached metadata whose usage hint stores the falsy strength `""`. -/
def mdEmptyStrength : LoraMetadata :=
  { fileName := "wye", usageTips := "\x7b\"strength\":\"\"\x7d", previewUrl := "/a.png",
    isVideo := false, modelName := "Wye" }

/-- One selected key whose cached strength is the empty string. -/
def bulkFalsyStrStrength : BulkState :=
  { bulkBase with selectedLoras := ["A"], loraMetadataCache := [("A", mdEmptyStrength)] }

/-! ### Concrete filter-manager scenarios -/

/-- A freshly constructed loras-page filter manager (empty storage)
whose tag container shows one inactive `sci-fi` toggle. -/
def fmLoras : FMState :=
  { currentPage := "loras", filters := emptyFiltersV, pageFilters := none, storage := [],
    reloads := [], toasts := [], filterButtonActive := false, activeCountDisplay := none,
    hasRecipeManager := false, hasCheckpointManager := false,
    tagEls := [⟨"sci-fi", false⟩], baseModelEls := [] }

/-- A loras-page manager constructed over storage holding an
unparseable value under its key. -/
def fmMalformed : FMState :=
  constructFM "loras" none [("loras_filters", "not json")] false false

/-- A recipes manager constructed over storage holding an unparseable
value under `recipeFilters`. -/
def rfmMalformed : RFMState :=
  constructRFM [("recipeFilters", "not json")]

/-- A loras-page manager constructed over storage whose stored record
parses but carries truthy non-array fields. -/
def fmNonArray : FMState :=
  constructFM "loras" none
    [("loras_filters", "\x7b\"baseModel\":5,\"tags\":6\x7d")] false false

/-- A loras-page manager holding a two-tag criteria, used to witness
the round-trip at a concrete input. -/
def fmCriteria : FMState :=
  { fmLoras with filters := mkFilters ["Pony"] ["style"] }

/-! ### The filter-field invariant (arrays of distinct tags) -/

/-- A filter field that is a JS array of strings without duplicates. -/
def wfField (v : JsonVal) : Prop :=
  ∃ xs : List String, v = .arr (xs.map .str) ∧ xs.Nodup

/-- Both filter fields well formed. -/
def wfFilters (f : FiltersV) : Prop := wfField f.baseModel ∧ wfField f.tags

/-- Condition on one stored field: absent, falsy, or a duplicate-free
string array. -/
def storedFieldOk (p : Option JsonVal) : Prop :=
  match p with
  | none => True
  | some v => v.truthy = false ∨ wfField v

/-- Condition on a stored value under one storage key: whenever it is
present, parseable, and its two field reads succeed, both fields are
`storedFieldOk`. -/
def storedOkKey (storage : List (String × String)) (key : String) : Prop :=
  ∀ raw, storage.lookup key = some raw →
    ∀ v, jsonParse raw = some v →
      ∀ bmv tgv, jsGetField v "baseModel" = .ok bmv → jsGetField v "tags" = .ok tgv →
        storedFieldOk bmv ∧ storedFieldOk tgv

/-! ## Lemmas about the bulk-selection operations -/

/-- The count/strip synchronisation never touches the cards, the
selection set or the metadata cache. -/
theorem stripSync_core (fuel : Nat) : ∀ (tag : Bool) (s : BulkState),
    (stripSync fuel tag s).1.cards = s.cards ∧
    (stripSync fuel tag s).1.selectedLoras = s.selectedLoras ∧
    (stripSync fuel tag s).1.loraMetadataCache = s.loraMetadataCache := by
  induction fuel with
  | zero => intro tag s; simp [stripSync]
  | succ n ih =>
    intro tag s
    cases tag with
    | true =>
      simp only [stripSync]
      split
      · exact ih false _
      · simp
    | false =>
      simp only [stripSync]
      split
      · have h := ih true { s with stripVisibleClass := false, isStripVisible := false }
        split
        · simpa using h
        · simpa using h
      · simp

/-- `updateThumbnailStrip` also leaves those fields alone. -/
theorem updateThumbnailStrip_core (s : BulkState) :
    (updateThumbnailStrip s).cards = s.cards ∧
    (updateThumbnailStrip s).selectedLoras = s.selectedLoras ∧
    (updateThumbnailStrip s).loraMetadataCache = s.loraMetadataCache := by
  unfold updateThumbnailStrip
  split <;> simp

/-- `toggleFinish` never touches the cards, the selection set or the
metadata cache. -/
theorem toggleFinish_core (fuel : Nat) (s : BulkState) :
    (toggleFinish fuel s).1.cards = s.cards ∧
    (toggleFinish fuel s).1.selectedLoras = s.selectedLoras ∧
    (toggleFinish fuel s).1.loraMetadataCache = s.loraMetadataCache := by
  unfold toggleFinish
  have hp := stripSync_core fuel true s
  have ht := updateThumbnailStrip_core (stripSync fuel true s).1
  simp only [updateSelectedCount]
  split
  · split
    · exact ⟨ht.1.trans hp.1, ht.2.1.trans hp.2.1, ht.2.2.trans hp.2.2⟩
    · exact ⟨hp.1, hp.2.1, hp.2.2⟩
  · exact ⟨hp.1, hp.2.1, hp.2.2⟩

/-- Effect of one `toggleCardSelection` on the cards and the selection
set: the found card's class flips, and the set mutation follows the
card's previous class (BulkManager.js:111-126); the trailing UI sync
leaves both alone. -/
theorem toggleCardSelection_core (fuel : Nat) (s : BulkState) (fp : String)
    (card : CardData) (h : findCard s.cards fp = some card) :
    (toggleCardSelection fuel s fp).1.cards = setCardSelected s.cards fp (!card.selected) ∧
    (toggleCardSelection fuel s fp).1.selectedLoras =
      (if card.selected then jsSetDelete s.selectedLoras fp
       else jsSetAdd s.selectedLoras fp) := by
  unfold toggleCardSelection
  rw [h]
  by_cases hc : card.selected
  · have hf := toggleFinish_core fuel
      { s with
        cards := setCardSelected s.cards fp false
        selectedLoras := jsSetDelete s.selectedLoras fp }
    simp only [hc, if_true, Bool.not_true]
    exact ⟨hf.1, hf.2.1⟩
  · have hf := toggleFinish_core fuel
      { s with
        cards := setCardSelected s.cards fp true
        selectedLoras := jsSetAdd s.selectedLoras fp
        loraMetadataCache := mapSet s.loraMetadataCache fp (cardMetadata card) }
    rw [Bool.not_eq_true] at hc
    simp only [hc, Bool.false_eq_true, if_false, Bool.not_false]
    exact ⟨hf.1, hf.2.1⟩

theorem contains_append_self (l : List String) (x : String) :
    (l ++ [x]).contains x = true := by
  simp [List.contains, List.elem_eq_mem]

theorem contains_filter_ne_self (l : List String) (x : String) :
    (l.filter (· ≠ x)).contains x = false := by
  simp [List.contains, List.elem_eq_mem]

theorem contains_filter_ne (l : List String) (x y : String) (h : y ≠ x) :
    (l.filter (· ≠ x)).contains y = l.contains y := by
  simp only [List.contains, List.elem_eq_mem, List.mem_filter]
  by_cases hm : y ∈ l <;> simp [hm, h]

theorem contains_append_ne (l : List String) (x y : String) (h : y ≠ x) :
    (l ++ [x]).contains y = l.contains y := by
  simp only [List.contains, List.elem_eq_mem, List.mem_append, List.mem_singleton]
  by_cases hm : y ∈ l <;> simp [hm, h]

theorem contains_jsSetAdd_self (l : List String) (x : String) :
    (jsSetAdd l x).contains x = true := by
  unfold jsSetAdd
  split
  · assumption
  · exact contains_append_self l x

theorem contains_jsSetAdd_ne (l : List String) (x y : String) (h : y ≠ x) :
    (jsSetAdd l x).contains y = l.contains y := by
  unfold jsSetAdd
  split
  · rfl
  · exact contains_append_ne l x y h

theorem contains_jsSetDelete_self (l : List String) (x : String) :
    (jsSetDelete l x).contains x = false :=
  contains_filter_ne_self l x

theorem contains_jsSetDelete_ne (l : List String) (x y : String) (h : y ≠ x) :
    (jsSetDelete l x).contains y = l.contains y :=
  contains_filter_ne l x y h

theorem findCard_setCardSelected_self (cards : List CardData) (fp : String) (b : Bool)
    (card : CardData) (h : findCard cards fp = some card) :
    findCard (setCardSelected cards fp b) fp = some { card with selected := b } := by
  induction cards with
  | nil => simp [findCard] at h
  | cons c rest ih =>
    unfold findCard at h ⊢
    unfold setCardSelected
    by_cases hc : (c.filepath == fp) = true
    · rw [List.find?_cons_of_pos (p := fun (x : CardData) => x.filepath == fp) _ hc] at h
      have hcard : c = card := Option.some.inj h
      subst hcard
      rw [if_pos hc]
      exact List.find?_cons_of_pos (p := fun (x : CardData) => x.filepath == fp) _ (by simpa using hc)
    · rw [List.find?_cons_of_neg (p := fun (x : CardData) => x.filepath == fp) _ hc] at h
      rw [if_neg hc]
      rw [List.find?_cons_of_neg (p := fun (x : CardData) => x.filepath == fp) _ hc]
      exact ih h

theorem findCard_setCardSelected_ne (cards : List CardData) (fp fp2 : String) (b : Bool)
    (h : fp2 ≠ fp) :
    findCard (setCardSelected cards fp b) fp2 = findCard cards fp2 := by
  induction cards with
  | nil => rfl
  | cons c rest ih =>
    unfold findCard at ih ⊢
    unfold setCardSelected
    by_cases hc : (c.filepath == fp) = true
    · have hfp : c.filepath = fp := by simpa using hc
      have h2 : ¬((c.filepath == fp2) = true) := by
        simp only [hfp, beq_iff_eq]
        exact fun he => h he.symm
      rw [if_pos hc]
      rw [List.find?_cons_of_neg (p := fun (x : CardData) => x.filepath == fp2) _ (by simpa using h2)]
      rw [List.find?_cons_of_neg (p := fun (x : CardData) => x.filepath == fp2) _ h2]
    · rw [if_neg hc]
      by_cases h2 : (c.filepath == fp2) = true
      · rw [List.find?_cons_of_pos (p := fun (x : CardData) => x.filepath == fp2) _ h2,
          List.find?_cons_of_pos (p := fun (x : CardData) => x.filepath == fp2) _ h2]
      · rw [List.find?_cons_of_neg (p := fun (x : CardData) => x.filepath == fp2) _ h2,
          List.find?_cons_of_neg (p := fun (x : CardData) => x.filepath == fp2) _ h2]
        exact ih

/-- A decidable sufficient condition for `selConsistent`. -/
theorem selConsistent_of_all (s : BulkState)
    (h : s.cards.all (fun c => c.selected == s.selectedLoras.contains c.filepath)) :
    selConsistent s := by
  intro fp card hf
  unfold findCard at hf
  have hmem : card ∈ s.cards := List.mem_of_find?_eq_some hf
  have hbeq := List.find?_some hf
  have heq : card.filepath = fp := by simpa using hbeq
  have hall := List.all_eq_true.mp h card hmem
  rw [heq] at hall
  simpa using hall

/-- One toggle on a rendered card, starting from a consistent state:
the toggled filepath's membership flips, everything else (membership of
other keys, the set of rendered filepaths) is unchanged, and
consistency is preserved. -/
theorem toggleCardSelection_step (fuel : Nat) (s : BulkState) (fp : String)
    (card : CardData) (h : findCard s.cards fp = some card) (hcons : selConsistent s) :
    selConsistent (toggleCardSelection fuel s fp).1 ∧
    (∀ k, (toggleCardSelection fuel s fp).1.selectedLoras.contains k =
        (if k = fp then !(s.selectedLoras.contains k) else s.selectedLoras.contains k)) ∧
    (∀ k, findCard (toggleCardSelection fuel s fp).1.cards k =
        (if k = fp then some { card with selected := !card.selected }
         else findCard s.cards k)) := by
  obtain ⟨hc, hs⟩ := toggleCardSelection_core fuel s fp card h
  have hcf : card.selected = s.selectedLoras.contains fp := hcons fp card h
  have hmem : ∀ k, (toggleCardSelection fuel s fp).1.selectedLoras.contains k =
      (if k = fp then !(s.selectedLoras.contains k) else s.selectedLoras.contains k) := by
    intro k
    rw [hs]
    by_cases hk : k = fp
    · subst hk
      by_cases hsel : card.selected
      · simp only [hsel, if_true]
        rw [contains_jsSetDelete_self, ← hcf, hsel]
        rfl
      · rw [Bool.not_eq_true] at hsel
        simp only [hsel, Bool.false_eq_true, if_false]
        rw [contains_jsSetAdd_self, ← hcf, hsel]
        rfl
    · simp only [if_neg hk]
      by_cases hsel : card.selected
      · simp only [hsel, if_true]
        exact contains_jsSetDelete_ne _ _ _ hk
      · rw [Bool.not_eq_true] at hsel
        simp only [hsel, Bool.false_eq_true, if_false]
        exact contains_jsSetAdd_ne _ _ _ hk
  have hfind : ∀ k, findCard (toggleCardSelection fuel s fp).1.cards k =
      (if k = fp then some { card with selected := !card.selected }
       else findCard s.cards k) := by
    intro k
    rw [hc]
    by_cases hk : k = fp
    · subst hk
      rw [if_pos rfl]
      exact findCard_setCardSelected_self s.cards k (!card.selected) card h
    · rw [if_neg hk]
      exact findCard_setCardSelected_ne s.cards fp k (!card.selected) hk
  refine ⟨?_, hmem, hfind⟩
  intro k card2 h2
  rw [hfind k] at h2
  rw [hmem k]
  by_cases hk : k = fp
  · subst hk
    rw [if_pos rfl] at h2 ⊢
    have : card2 = { card with selected := !card.selected } := (Option.some.inj h2).symm
    rw [this, ← hcf]
  · rw [if_neg hk] at h2 ⊢
    exact hcons k card2 h2

/-- C1: for every sequence of `toggleCardSelection` calls on rendered
item cards (cards rendered consistently with SelectionSet membership,
as `createLoraCard`/`applySelectionState` render them), the final
SelectionSet membership of each key is its initial membership xor the
parity of the number of toggles of that key: an even number of toggles
leaves the key in its original membership state, an odd number flips
it. -/
theorem toggleSeq_parity (fuel : Nat) (ks : List String) : ∀ (s : BulkState),
    selConsistent s → (∀ k ∈ ks, (findCard s.cards k).isSome) → ∀ (k : String),
    (toggleSeq fuel s ks).selectedLoras.contains k =
      xor (decide (ks.count k % 2 = 1)) (s.selectedLoras.contains k) := by
  induction ks with
  | nil =>
    intro s _ _ k
    simp [toggleSeq]
  | cons k0 ks ih =>
    intro s hcons hr k
    have hr0 : (findCard s.cards k0).isSome = true := hr k0 (by simp)
    obtain ⟨card, hcard⟩ := Option.isSome_iff_exists.mp hr0
    obtain ⟨hcons1, hmem, hfind⟩ := toggleCardSelection_step fuel s k0 card hcard hcons
    have hseq : toggleSeq fuel s (k0 :: ks) =
        toggleSeq fuel (toggleCardSelection fuel s k0).1 ks := rfl
    rw [hseq]
    have hr1 : ∀ x ∈ ks, (findCard (toggleCardSelection fuel s k0).1.cards x).isSome := by
      intro x hx
      rw [hfind x]
      by_cases hxk : x = k0
      · simp [hxk]
      · simp only [if_neg hxk]
        exact hr x (by simp [hx])
    rw [ih (toggleCardSelection fuel s k0).1 hcons1 hr1 k, hmem k]
    by_cases hk : k = k0
    · subst hk
      rw [List.count_cons_self, if_pos rfl]
      rcases Nat.mod_two_eq_zero_or_one (ks.count k) with hp | hp
      · have h1 : (ks.count k + 1) % 2 = 1 := by omega
        have h0 : ¬(ks.count k % 2 = 1) := by omega
        cases hb : s.selectedLoras.contains k <;> simp [h1, h0, hb]
      · have h1 : ¬((ks.count k + 1) % 2 = 1) := by omega
        cases hb : s.selectedLoras.contains k <;> simp [h1, hp, hb]
    · rw [List.count_cons_of_ne hk, if_neg hk]

/-- C8: after any `toggleCardSelection` call on a rendered card — even
when the visual marker and the membership disagreed beforehand — the
card's `selected` marker equals its SelectionSet membership (the set
mutation is driven by the very class flip that sets the marker). -/
theorem toggleCardSelection_marker_matches (fuel : Nat) (s : BulkState) (fp : String)
    (card : CardData) (h : findCard s.cards fp = some card) :
    (findCard (toggleCardSelection fuel s fp).1.cards fp).map (fun c => c.selected) =
      some ((toggleCardSelection fuel s fp).1.selectedLoras.contains fp) := by
  obtain ⟨hc, hs⟩ := toggleCardSelection_core fuel s fp card h
  rw [hc, hs, findCard_setCardSelected_self s.cards fp (!card.selected) card h]
  by_cases hsel : card.selected
  · simp only [hsel, if_true, Option.map_some]
    rw [contains_jsSetDelete_self]
    rfl
  · rw [Bool.not_eq_true] at hsel
    simp only [hsel, Bool.false_eq_true, if_false, Option.map_some]
    rw [contains_jsSetAdd_self]
    rfl

/-- When the selection is empty and the strip element is in the DOM,
the `updateSelectedCount` ⇄ `hideThumbnailStrip` recursion never
terminates, whatever the stack budget: the result flag is the
stack-overflow exception and the strip element is never removed. -/
theorem stripSync_diverges (fuel : Nat) : ∀ (tag : Bool) (s : BulkState),
    s.selectedLoras = [] → s.stripPresent = true →
    (stripSync fuel tag s).2 = false ∧
    (stripSync fuel tag s).1.stripPresent = true ∧
    (stripSync fuel tag s).1.selectedLoras = [] := by
  induction fuel with
  | zero => intro tag s h1 h2; simp [stripSync, h1, h2]
  | succ n ih =>
    intro tag s h1 h2
    cases tag with
    | true =>
      simp only [stripSync]
      rw [if_pos (by simp [h1])]
      exact ih false _ h1 h2
    | false =>
      simp only [stripSync]
      rw [if_pos h2]
      have hr := ih true { s with stripVisibleClass := false, isStripVisible := false } h1 h2
      rw [if_neg (by rw [hr.1]; simp)]
      exact hr

theorem toggleSeq_parity_witness :
    (toggleSeq 5 bulkBase ["A", "A", "B"]).selectedLoras.contains "A" =
      xor (decide ((["A", "A", "B"] : List String).count "A" % 2 = 1))
        (bulkBase.selectedLoras.contains "A") := by
  apply toggleSeq_parity
  · apply selConsistent_of_all
    decide
  · intro k hk
    fin_cases hk <;> decide

theorem toggleCardSelection_marker_matches_witness :
    (findCard (toggleCardSelection 5 bulkBase "A").1.cards "A").map (fun c => c.selected) =
      some ((toggleCardSelection 5 bulkBase "A").1.selectedLoras.contains "A") :=
  toggleCardSelection_marker_matches 5 bulkBase "A" cardAlpha (by decide)

/-- C9: `clearSelection` invoked while the preview strip is present does
empty the SelectionSet and clear every card's marker, but then the
`updateSelectedCount` ⇄ `hideThumbnailStrip` recursion overflows the
stack for every stack budget and the strip element is never removed —
contradicting the specified postcondition "preview strip absent". -/
theorem clearSelection_strip_crash : ∀ fuel : Nat,
    (clearSelection fuel bulkStripShown).2 = false ∧
    (clearSelection fuel bulkStripShown).1.stripPresent = true ∧
    (clearSelection fuel bulkStripShown).1.selectedLoras = [] ∧
    (∀ c ∈ (clearSelection fuel bulkStripShown).1.cards, c.selected = false) := by
  intro fuel
  have hd := stripSync_diverges fuel true
    { bulkStripShown with
      cards := bulkStripShown.cards.map (fun c => { c with selected := false })
      selectedLoras := [] } rfl rfl
  have hc := stripSync_core fuel true
    { bulkStripShown with
      cards := bulkStripShown.cards.map (fun c => { c with selected := false })
      selectedLoras := [] }
  unfold clearSelection updateSelectedCount
  rw [if_neg (by rw [hd.1]; simp)]
  refine ⟨hd.1, hd.2.1, hd.2.2, ?_⟩
  rw [hc.1]
  decide

theorem clearSelection_strip_crash_witness :
    (clearSelection 1000 bulkStripShown).2 = false ∧
    (clearSelection 1000 bulkStripShown).1.stripPresent = true ∧
    (clearSelection 1000 bulkStripShown).1.selectedLoras = [] ∧
    (∀ c ∈ (clearSelection 1000 bulkStripShown).1.cards, c.selected = false) :=
  clearSelection_strip_crash 1000

/-- C2 counterexample: the claim says an unparseable usage-hint makes
the strength default to 1 (token still produced, clipboard still
written).  On a selection whose only cache entry carries the
unparseable hint `oops`, `copyAllLorasSyntax` instead rejects with the
uncaught `JSON.parse` error: no token, no notification, no clipboard
write. -/
theorem copyAllLorasSyntax_unparseable_throws :
    copyAllLorasSyntax bulkBadHint = Except.error JsErr.syntaxError := by rfl

/-- C2 (amended): with SelectionSet {A, B} and a cache entry only for A
(display name `foo`, usage-hint strength 0.8), `copyAllLorasSyntax`
emits exactly one token `<lora:foo:0.8>`, warns about the 1 missing
item, and still writes the clipboard; the strength defaults to 1 when
the usage-hint is absent (an unparseable hint aborts instead, see the
counterexample). -/
theorem copyAllLorasSyntax_partial_failure :
    (copyAllLorasSyntax bulkTwoSel = Except.ok { bulkTwoSel with
        toasts := [("Missing data for 1 LoRAs", "warning"),
                   ("Copied 1 LoRA syntaxes to clipboard", "success")]
        clipboardWrites := ["<lora:foo:0.8>"] }) ∧
    (copyAllLorasSyntax bulkAbsentHint = Except.ok { bulkAbsentHint with
        toasts := [("Copied 1 LoRA syntaxes to clipboard", "success")]
        clipboardWrites := ["<lora:bar:1>"] }) := by
  constructor <;> rfl

/-- C3: `copyAllLorasSyntax` on an empty SelectionSet reports the
"No LoRAs selected" notification and performs no clipboard write; when
every selected key is missing from the cache it reports the
missing-data warning and the "No valid LoRAs to copy" error and
performs no clipboard write. -/
theorem copyAllLorasSyntax_empty_cases :
    (copyAllLorasSyntax bulkBase = Except.ok { bulkBase with
        toasts := [("No LoRAs selected", "warning")] }) ∧
    (copyAllLorasSyntax bulkAllMissing = Except.ok { bulkAllMissing with
        toasts := [("Missing data for 1 LoRAs", "warning"),
                   ("No valid LoRAs to copy", "error")] }) := by
  constructor <;> rfl

/-- C10: a usage-hint whose parsed strength is exactly 0 — or any falsy
value such as the empty string — yields a token with the default
strength 1, not the stored value. -/
theorem copyAllLorasSyntax_falsy_strength_defaults :
    (copyAllLorasSyntax bulkZeroStrength = Except.ok { bulkZeroStrength with
        toasts := [("Copied 1 LoRA syntaxes to clipboard", "success")]
        clipboardWrites := ["<lora:zed:1>"] }) ∧
    (copyAllLorasSyntax bulkFalsyStrStrength = Except.ok { bulkFalsyStrStrength with
        toasts := [("Copied 1 LoRA syntaxes to clipboard", "success")]
        clipboardWrites := ["<lora:wye:1>"] }) := by
  constructor <;> rfl

/-- C5: clicking the inactive `sci-fi` tag toggle on empty criteria
puts exactly that tag into the tags field, persists the criteria under
`loras_filters`, and invokes the loras reload collaborator once;
clicking it again (now active) removes the tag, persists again, and
reloads again — persistence and reload happen on every toggle.  (The
spec's "category" field is the `tags` field; "attribute" is
`baseModel`.) -/
theorem tagElClick_toggle_roundtrip :
    ((tagElClick fmLoras 0).1.filters.tags = JsonVal.arr [.str "sci-fi"]) ∧
    ((tagElClick fmLoras 0).1.filters.baseModel = JsonVal.arr []) ∧
    ((tagElClick fmLoras 0).1.storage.lookup "loras_filters" =
      some "\x7b\"baseModel\":[],\"tags\":[\"sci-fi\"]\x7d") ∧
    ((tagElClick fmLoras 0).1.reloads = ["loras"]) ∧
    ((tagElClick fmLoras 0).1.tagEls = [⟨"sci-fi", true⟩]) ∧
    ((tagElClick fmLoras 0).2 = none) ∧
    ((tagElClick (tagElClick fmLoras 0).1 0).1.filters.tags = JsonVal.arr []) ∧
    ((tagElClick (tagElClick fmLoras 0).1 0).1.storage.lookup "loras_filters" =
      some "\x7b\"baseModel\":[],\"tags\":[]\x7d") ∧
    ((tagElClick (tagElClick fmLoras 0).1 0).1.reloads = ["loras", "loras"]) ∧
    ((tagElClick (tagElClick fmLoras 0).1 0).2 = none) := by
  refine ⟨?_, ?_, ?_, ?_, ?_, ?_, ?_, ?_, ?_, ?_⟩ <;> rfl

/-- C6: `loadFiltersFromStorage` at construction over malformed stored
JSON leaves both tag fields as empty arrays, in both filter-manager
variants; the parse error is caught inside the method, so construction
completes normally (the functions below are total and return the
resulting state). -/
theorem loadFilters_malformed_defaults :
    (fmMalformed.filters.baseModel = JsonVal.arr []) ∧
    (fmMalformed.filters.tags = JsonVal.arr []) ∧
    (rfmMalformed.filters.baseModel = JsonVal.arr []) ∧
    (rfmMalformed.filters.tags = JsonVal.arr []) := by
  refine ⟨?_, ?_, ?_, ?_⟩ <;> rfl

/-- C7 counterexample: the invariant "both tag fields are always
arrays" is broken by `loadFiltersFromStorage` itself — a parseable
stored record with truthy non-array fields (here the numbers 5 and 6)
is adopted as-is by `parsed.field || []`, so after construction the
fields are numbers, not arrays. -/
theorem loadFilters_nonarray_field :
    (fmNonArray.filters.baseModel = JsonVal.num 5 0) ∧
    (fmNonArray.filters.baseModel.isArray = false) ∧
    (fmNonArray.filters.tags = JsonVal.num 6 0) ∧
    (fmNonArray.filters.tags.isArray = false) := by
  refine ⟨?_, ?_, ?_, ?_⟩ <;> rfl

/-! ### Round-trip of the stored filter record through the JSON model -/

theorem hexVal_hexDigitChar : ∀ d < 16, hexVal (hexDigitChar d) = some d := by decide

theorem parseStrBody_quote (rest : List Char) :
    parseStrBody ('"' :: rest) = some ([], rest) := by
  conv_lhs => unfold parseStrBody
  simp

theorem parseStrBody_esc_quote (X : List Char) :
    parseStrBody ('\\' :: '"' :: X) = (parseStrBody X).map (fun p => ('"' :: p.1, p.2)) := by
  conv_lhs => unfold parseStrBody
  simp

theorem parseStrBody_esc_backslash (X : List Char) :
    parseStrBody ('\\' :: '\\' :: X) = (parseStrBody X).map (fun p => ('\\' :: p.1, p.2)) := by
  conv_lhs => unfold parseStrBody
  simp

theorem parseStrBody_esc_b (X : List Char) :
    parseStrBody ('\\' :: 'b' :: X) = (parseStrBody X).map (fun p => ('\x08' :: p.1, p.2)) := by
  conv_lhs => unfold parseStrBody
  simp

theorem parseStrBody_esc_f (X : List Char) :
    parseStrBody ('\\' :: 'f' :: X) = (parseStrBody X).map (fun p => ('\x0c' :: p.1, p.2)) := by
  conv_lhs => unfold parseStrBody
  simp

theorem parseStrBody_esc_n (X : List Char) :
    parseStrBody ('\\' :: 'n' :: X) = (parseStrBody X).map (fun p => ('\n' :: p.1, p.2)) := by
  conv_lhs => unfold parseStrBody
  simp

theorem parseStrBody_esc_r (X : List Char) :
    parseStrBody ('\\' :: 'r' :: X) = (parseStrBody X).map (fun p => ('\x0d' :: p.1, p.2)) := by
  conv_lhs => unfold parseStrBody
  simp

theorem parseStrBody_esc_t (X : List Char) :
    parseStrBody ('\\' :: 't' :: X) = (parseStrBody X).map (fun p => ('\t' :: p.1, p.2)) := by
  conv_lhs => unfold parseStrBody
  simp

theorem parseStrBody_esc_u (h3 h4 : Char) (d3 d4 : Nat) (X : List Char)
    (e3 : hexVal h3 = some d3) (e4 : hexVal h4 = some d4) :
    parseStrBody ('\\' :: 'u' :: '0' :: '0' :: h3 :: h4 :: X) =
      (parseStrBody X).map
        (fun p => (Char.ofNat (((0 * 16 + 0) * 16 + d3) * 16 + d4) :: p.1, p.2)) := by
  have h0 : hexVal '0' = some 0 := by decide
  conv_lhs => unfold parseStrBody
  simp [h0, e3, e4]

theorem parseStrBody_lit (c : Char) (X : List Char) (hq : ¬(c = '"')) (hb : ¬(c = '\\')) :
    parseStrBody (c :: X) = (parseStrBody X).map (fun p => (c :: p.1, p.2)) := by
  conv_lhs => unfold parseStrBody
  simp [hq, hb]

/-- Escaping and the string-body parser are inverse: the rendered body
of any string, followed by the closing quote, parses back to exactly
that string. -/
theorem parseStrBody_escChars (cs : List Char) : ∀ rest : List Char,
    parseStrBody (escChars cs ++ '"' :: rest) = some (cs, rest) := by
  induction cs with
  | nil => intro rest; simpa [escChars] using parseStrBody_quote rest
  | cons c cs ih =>
    intro rest
    have hesc : escChars (c :: cs) = escChar c ++ escChars cs := by simp [escChars]
    rw [hesc, List.append_assoc]
    unfold escChar
    by_cases h1 : c = '"'
    · subst h1
      simp only [reduceIte, List.cons_append, List.nil_append]
      rw [parseStrBody_esc_quote, ih rest]
      rfl
    · rw [if_neg h1]
      by_cases h2 : c = '\\'
      · subst h2
        simp only [reduceIte, List.cons_append, List.nil_append]
        rw [parseStrBody_esc_backslash, ih rest]
        rfl
      · rw [if_neg h2]
        by_cases h3 : c = '\x08'
        · subst h3
          simp only [reduceIte, List.cons_append, List.nil_append]
          rw [parseStrBody_esc_b, ih rest]
          rfl
        · rw [if_neg h3]
          by_cases h4 : c = '\x0c'
          · subst h4
            simp only [reduceIte, List.cons_append, List.nil_append]
            rw [parseStrBody_esc_f, ih rest]
            rfl
          · rw [if_neg h4]
            by_cases h5 : c = '\n'
            · subst h5
              simp only [reduceIte, List.cons_append, List.nil_append]
              rw [parseStrBody_esc_n, ih rest]
              rfl
            · rw [if_neg h5]
              by_cases h6 : c = '\x0d'
              · subst h6
                simp only [reduceIte, List.cons_append, List.nil_append]
                rw [parseStrBody_esc_r, ih rest]
                rfl
              · rw [if_neg h6]
                by_cases h7 : c = '\t'
                · subst h7
                  simp only [reduceIte, List.cons_append, List.nil_append]
                  rw [parseStrBody_esc_t, ih rest]
                  rfl
                · rw [if_neg h7]
                  by_cases h8 : c.toNat < 32
                  · rw [if_pos h8]
                    simp only [List.cons_append, List.nil_append]
                    rw [parseStrBody_esc_u _ _ _ _ _
                      (hexVal_hexDigitChar _ (by omega))
                      (hexVal_hexDigitChar _ (by omega)), ih rest]
                    have hval : ((0 * 16 + 0) * 16 + c.toNat / 16) * 16 + c.toNat % 16 =
                        c.toNat := by omega
                    have hval2 : c.toNat / 16 * 16 + c.toNat % 16 = c.toNat := by omega
                    simp [hval, hval2, Char.ofNat_toNat]
                  · rw [if_neg h8]
                    simp only [List.cons_append, List.nil_append]
                    rw [parseStrBody_lit c _ h1 h2, ih rest]
                    rfl

theorem skipWs_cons (c : Char) (rest : List Char) (h : isJsonWs c = false) :
    skipWs (c :: rest) = c :: rest := by
  unfold skipWs
  simp [h]

/-- A rendered string literal parses back to that string. -/
theorem parseVal_str (fuel : Nat) (s : String) (rest : List Char) :
    parseVal (fuel + 1) (renderStr s ++ rest) = some (.str s, rest) := by
  have hA : renderStr s ++ rest = '"' :: (escChars s.data ++ '"' :: rest) := by
    simp [renderStr]
  rw [hA]
  conv_lhs => unfold parseVal
  rw [skipWs_cons _ _ (by decide)]
  simp [parseStrBody_escChars]

/-- Comma-separated rendered string elements followed by `]` parse back
to exactly those elements. -/
theorem parseElems_strs (xs : List String) : ∀ (x : String) (fuel : Nat) (rest : List Char),
    xs.length + 2 ≤ fuel →
    parseElems fuel (renderElems ((x :: xs).map JsonVal.str) ++ ']' :: rest) =
      some ((x :: xs).map JsonVal.str, rest) := by
  induction xs with
  | nil =>
    intro x fuel rest hf
    obtain ⟨f, rfl⟩ : ∃ f, fuel = f + 2 := ⟨fuel - 2, by omega⟩
    have hr : renderElems ([x].map JsonVal.str) = renderStr x := by
      simp [renderElems, renderVal]
    rw [hr]
    conv_lhs => unfold parseElems
    rw [parseVal_str]
    simp [skipWs_cons, isJsonWs]
  | cons y ys ih =>
    intro x fuel rest hf
    obtain ⟨g, rfl⟩ : ∃ g, fuel = g + 2 := ⟨fuel - 2, by omega⟩
    have hr : renderElems ((x :: y :: ys).map JsonVal.str) =
        renderStr x ++ ',' :: renderElems ((y :: ys).map JsonVal.str) := by
      simp [renderElems, renderVal]
    rw [hr]
    conv_lhs => unfold parseElems
    rw [List.append_assoc, List.cons_append, parseVal_str]
    have hih := ih y (g + 1) rest (by simp at hf ⊢; omega)
    simp only [List.map_cons] at hih
    simp [skipWs_cons, isJsonWs, hih]

/-- A rendered array of strings parses back to that array. -/
theorem parseVal_strArr (xs : List String) (fuel : Nat) (rest : List Char)
    (hf : xs.length + 3 ≤ fuel) :
    parseVal fuel (renderVal (.arr (xs.map .str)) ++ rest) =
      some (.arr (xs.map .str), rest) := by
  obtain ⟨f, rfl⟩ : ∃ f, fuel = f + 1 := ⟨fuel - 1, by omega⟩
  cases xs with
  | nil =>
    have hr : renderVal (.arr ([].map JsonVal.str)) ++ rest = '[' :: ']' :: rest := by
      simp [renderVal, renderElems]
    rw [hr]
    conv_lhs => unfold parseVal
    simp [skipWs_cons, isJsonWs]
  | cons x xs =>
    obtain ⟨T, hT⟩ : ∃ T, renderElems ((x :: xs).map JsonVal.str) = '"' :: T := by
      cases xs <;> simp [renderElems, renderVal, renderStr]
    have hr : renderVal (.arr ((x :: xs).map JsonVal.str)) ++ rest =
        '[' :: (renderElems ((x :: xs).map JsonVal.str) ++ ']' :: rest) := by
      simp [renderVal]
    rw [hr]
    conv_lhs => unfold parseVal
    rw [hT]
    have hp := parseElems_strs xs x f rest (by simp at hf ⊢; omega)
    rw [hT] at hp
    simp only [List.cons_append, List.map_cons] at hp
    simp [skipWs_cons, isJsonWs, hp]

/-- A rendered single `"key": stringArray` member followed by `}`
parses back to that member. -/
theorem parseMembers_single (k : String) (xs : List String) (fuel : Nat) (rest : List Char)
    (hf : xs.length + 4 ≤ fuel) :
    parseMembers fuel
      (renderStr k ++ ':' :: (renderVal (.arr (xs.map .str)) ++ '\x7d' :: rest)) =
      some ([(k, JsonVal.arr (xs.map .str))], rest) := by
  obtain ⟨f, rfl⟩ : ∃ f, fuel = f + 1 := ⟨fuel - 1, by omega⟩
  have hr : renderStr k ++ ':' :: (renderVal (.arr (xs.map .str)) ++ '\x7d' :: rest) =
      '"' :: (escChars k.data ++
        '"' :: ':' :: (renderVal (.arr (xs.map .str)) ++ '\x7d' :: rest)) := by
    simp [renderStr]
  rw [hr]
  conv_lhs => unfold parseMembers
  have hstr := parseStrBody_escChars k.data
    (':' :: (renderVal (.arr (xs.map .str)) ++ '\x7d' :: rest))
  have harr := parseVal_strArr xs f ('\x7d' :: rest) (by omega)
  simp [skipWs_cons, isJsonWs, hstr, harr]

/-- The rendered two-member filter record body followed by `}` parses
back to those two members. -/
theorem parseMembers_filters (bm tags : List String) (fuel : Nat) (rest : List Char)
    (hf : bm.length + tags.length + 7 ≤ fuel) :
    parseMembers fuel
      (renderMembers [("baseModel", JsonVal.arr (bm.map .str)),
        ("tags", JsonVal.arr (tags.map .str))] ++ '\x7d' :: rest) =
      some ([("baseModel", JsonVal.arr (bm.map .str)),
        ("tags", JsonVal.arr (tags.map .str))], rest) := by
  obtain ⟨f, rfl⟩ : ∃ f, fuel = f + 1 := ⟨fuel - 1, by omega⟩
  have hr : renderMembers [("baseModel", JsonVal.arr (bm.map .str)),
        ("tags", JsonVal.arr (tags.map .str))] ++ '\x7d' :: rest =
      '"' :: (escChars "baseModel".data ++
        '"' :: ':' :: (renderVal (.arr (bm.map .str)) ++
          ',' :: (renderStr "tags" ++
            ':' :: (renderVal (.arr (tags.map .str)) ++ '\x7d' :: rest)))) := by
    simp [renderMembers, renderStr]
  rw [hr]
  conv_lhs => unfold parseMembers
  have hstr := parseStrBody_escChars "baseModel".data
    (':' :: (renderVal (.arr (bm.map .str)) ++
      ',' :: (renderStr "tags" ++
        ':' :: (renderVal (.arr (tags.map .str)) ++ '\x7d' :: rest))))
  have harr := parseVal_strArr bm f
    (',' :: (renderStr "tags" ++
      ':' :: (renderVal (.arr (tags.map .str)) ++ '\x7d' :: rest))) (by omega)
  have hsnd := parseMembers_single "tags" tags f rest (by omega)
  simp [skipWs_cons, isJsonWs, hstr, harr, hsnd]

/-- The rendered filter record parses back to the corresponding
object. -/
theorem parseVal_filtersObj (bm tags : List String) (fuel : Nat) (rest : List Char)
    (hf : bm.length + tags.length + 8 ≤ fuel) :
    parseVal fuel
      (renderVal (.obj [("baseModel", JsonVal.arr (bm.map .str)),
        ("tags", JsonVal.arr (tags.map .str))]) ++ rest) =
      some (.obj [("baseModel", JsonVal.arr (bm.map .str)),
        ("tags", JsonVal.arr (tags.map .str))], rest) := by
  obtain ⟨f, rfl⟩ : ∃ f, fuel = f + 1 := ⟨fuel - 1, by omega⟩
  have hr : renderVal (.obj [("baseModel", JsonVal.arr (bm.map .str)),
        ("tags", JsonVal.arr (tags.map .str))]) ++ rest =
      '\x7b' :: ('"' :: (escChars "baseModel".data ++
        '"' :: ':' :: (renderVal (.arr (bm.map .str)) ++
          ',' :: (renderStr "tags" ++
            ':' :: (renderVal (.arr (tags.map .str)) ++ '\x7d' :: rest))))) := by
    simp [renderVal, renderMembers, renderStr]
  rw [hr]
  conv_lhs => unfold parseVal
  have hmem := parseMembers_filters bm tags f rest (by omega)
  have hr2 : renderMembers [("baseModel", JsonVal.arr (bm.map .str)),
        ("tags", JsonVal.arr (tags.map .str))] ++ '\x7d' :: rest =
      '"' :: (escChars "baseModel".data ++
        '"' :: ':' :: (renderVal (.arr (bm.map .str)) ++
          ',' :: (renderStr "tags" ++
            ':' :: (renderVal (.arr (tags.map .str)) ++ '\x7d' :: rest)))) := by
    simp [renderMembers, renderStr]
  rw [hr2] at hmem
  simp [skipWs_cons, isJsonWs, hmem]

theorem renderStr_len_ge (s : String) : 2 ≤ (renderStr s).length := by
  simp [renderStr]

theorem renderElems_strs_len_ge (xs : List String) :
    xs.length ≤ (renderElems (xs.map JsonVal.str)).length := by
  induction xs with
  | nil => simp [renderElems]
  | cons x xs ih =>
    cases xs with
    | nil =>
      have := renderStr_len_ge x
      simp [renderElems, renderVal]
      omega
    | cons y ys =>
      have h1 := renderStr_len_ge x
      have hr : renderElems (((x :: y :: ys).map JsonVal.str)) =
          renderStr x ++ ',' :: renderElems ((y :: ys).map JsonVal.str) := by
        simp [renderElems, renderVal]
      rw [hr]
      simp only [List.length_append, List.length_cons]
      simp only [List.length_cons] at ih
      omega

theorem renderArr_strs_len_ge (xs : List String) :
    xs.length + 2 ≤ (renderVal (.arr (xs.map JsonVal.str))).length := by
  have := renderElems_strs_len_ge xs
  simp [renderVal]
  omega

/-- `JSON.parse` inverts `JSON.stringify` on every filter record built
from two tag lists (the top-level fuel, one more than the input length,
always suffices). -/
theorem jsonParse_stringifyFilters (bm tags : List String) :
    jsonParse (stringifyFilters (mkFilters bm tags)) =
      some (.obj [("baseModel", JsonVal.arr (bm.map .str)),
        ("tags", JsonVal.arr (tags.map .str))]) := by
  unfold jsonParse stringifyFilters mkFilters
  have hlen : bm.length + tags.length + 8 ≤
      (String.mk (renderVal (.obj [("baseModel", JsonVal.arr (bm.map .str)),
        ("tags", JsonVal.arr (tags.map .str))]))).length + 1 := by
    have h1 := renderArr_strs_len_ge bm
    have h2 := renderArr_strs_len_ge tags
    have hk1 := renderStr_len_ge "baseModel"
    have hk2 := renderStr_len_ge "tags"
    have : (String.mk (renderVal (.obj [("baseModel", JsonVal.arr (bm.map .str)),
        ("tags", JsonVal.arr (tags.map .str))]))).length =
        (renderVal (.obj [("baseModel", JsonVal.arr (bm.map .str)),
          ("tags", JsonVal.arr (tags.map .str))])).length := rfl
    rw [this]
    have e1 := renderElems_strs_len_ge bm
    have e2 := renderElems_strs_len_ge tags
    simp only [renderVal, renderMembers, List.length_cons, List.length_append,
      List.length_nil]
    omega
  have hp := parseVal_filtersObj bm tags
    ((String.mk (renderVal (.obj [("baseModel", JsonVal.arr (bm.map .str)),
      ("tags", JsonVal.arr (tags.map .str))]))).length + 1) [] hlen
  rw [List.append_nil] at hp
  have hdata : (String.mk (renderVal (.obj [("baseModel", JsonVal.arr (bm.map .str)),
      ("tags", JsonVal.arr (tags.map .str))]))).data =
      renderVal (.obj [("baseModel", JsonVal.arr (bm.map .str)),
        ("tags", JsonVal.arr (tags.map .str))]) := rfl
  rw [hdata, hp]
  simp [skipWs]

theorem storeSet_lookup (st : List (String × String)) (k v : String) :
    (storeSet st k v).lookup k = some v := by
  induction st with
  | nil => simp [storeSet]
  | cons p rest ih =>
    obtain ⟨k1, v1⟩ := p
    unfold storeSet
    by_cases h : k1 = k
    · simp [h, List.lookup]
    · simp only [if_neg h]
      simp only [List.lookup]
      have hbeq : (k == k1) = false := by
        simp only [beq_eq_false_iff_ne, ne_eq]
        exact fun he => h he.symm
      rw [hbeq]
      exact ih

theorem updateTagSelections_filters (s : FMState) :
    (updateTagSelections s).1.filters = s.filters := by
  unfold updateTagSelections
  dsimp only
  split <;> rfl

theorem updateActiveFiltersCount_filters (s : FMState) :
    (updateActiveFiltersCount s).filters = s.filters := by
  unfold updateActiveFiltersCount
  repeat' split
  all_goals rfl

theorem applyFilters_filters (notify : Bool) (s : FMState) :
    (applyFilters notify s).filters = s.filters := by
  unfold applyFilters reloadFor
  dsimp only
  repeat' split
  all_goals rfl

theorem applyFilters_storage (notify : Bool) (s : FMState) :
    (applyFilters notify s).storage =
      storeSet s.storage (s.currentPage ++ "_filters") (stringifyFilters s.filters) := by
  unfold applyFilters reloadFor
  dsimp only
  repeat' split
  all_goals rfl

theorem applyFilters_pageFilters (notify : Bool) (s : FMState) :
    (applyFilters notify s).pageFilters = some s.filters := by
  unfold applyFilters reloadFor
  dsimp only
  repeat' split
  all_goals rfl

theorem applyFilters_currentPage (notify : Bool) (s : FMState) :
    (applyFilters notify s).currentPage = s.currentPage := by
  unfold applyFilters reloadFor
  dsimp only
  repeat' split
  all_goals rfl

/-- C4: persisting any FilterCriteria with `applyFilters()` and then
constructing a fresh manager for the same context — whose
`loadFiltersFromStorage()` reads the context key — reproduces the
identical criteria, whatever the shared page-state snapshot and
collaborator availability of the fresh page. -/
theorem applyFilters_fresh_manager_roundtrip (bm tags : List String) (s : FMState)
    (hf : s.filters = mkFilters bm tags) (pf : Option FiltersV) (hrm hcm : Bool) :
    (constructFM s.currentPage pf (applyFilters true s).storage hrm hcm).filters =
      mkFilters bm tags := by
  have hlk : ((applyFilters true s).storage).lookup (s.currentPage ++ "_filters") =
      some (stringifyFilters (mkFilters bm tags)) := by
    rw [applyFilters_storage, hf]
    exact storeSet_lookup _ _ _
  have hne : ¬(stringifyFilters (mkFilters bm tags) = "") := by
    intro h
    have hd := congrArg String.data h
    simp [stringifyFilters, renderVal] at hd
  unfold constructFM loadFiltersFromStorage
  dsimp only
  rw [hlk]
  dsimp only
  rw [if_neg hne]
  rw [jsonParse_stringifyFilters bm tags]
  have hbeq : ("tags" == "baseModel") = false := by decide
  simp only [jsGetField, List.lookup, beq_self_eq_true, hbeq, orEmptyArr, JsonVal.truthy,
    eq_self_iff_true, if_true, updateTagSelections, syncEls]
  split
  · simp only [updateActiveFiltersCount_filters]
    rfl
  · simp only [updateActiveFiltersCount_filters]
    rfl

theorem applyFilters_fresh_manager_roundtrip_witness :
    (constructFM fmCriteria.currentPage none
      (applyFilters true fmCriteria).storage false false).filters =
      mkFilters ["Pony"] ["style"] :=
  applyFilters_fresh_manager_roundtrip ["Pony"] ["style"] fmCriteria rfl none false false

theorem eqStr_str (y t : String) : (JsonVal.str y).eqStr t = (y == t) := rfl

theorem map_str_any_eqStr (xs : List String) (t : String) :
    ((xs.map JsonVal.str).any (·.eqStr t)) = xs.contains t := by
  induction xs with
  | nil => rfl
  | cons x xs ih =>
    have hcomm : (t == x) = (x == t) := by
      by_cases h : x = t
      · subst h; rfl
      · have h2 : ¬(t = x) := fun he => h he.symm
        simp [h, h2]
    simp only [List.map_cons, List.any_cons, eqStr_str, ih]
    have hR : (x :: xs).contains t = ((x == t) || xs.contains t) := by
      simp only [List.contains, List.elem]
      rw [hcomm]
      cases h : (x == t) <;> rfl
    rw [hR]

theorem map_str_filter_eqStr (xs : List String) (t : String) :
    ((xs.map JsonVal.str).filter (fun x => !x.eqStr t)) =
      (xs.filter (· ≠ t)).map JsonVal.str := by
  induction xs with
  | nil => rfl
  | cons x xs ih =>
    simp only [List.map_cons, List.filter_cons, eqStr_str]
    by_cases h : x = t
    · subst h
      simp [ih]
    · simp [h, ih]

theorem nodup_append_singleton (xs : List String) (t : String)
    (hnd : xs.Nodup) (hc : xs.contains t = false) : (xs ++ [t]).Nodup := by
  have hmem : t ∉ xs := by
    rw [List.contains, List.elem_eq_mem] at hc
    simpa using hc
  simp [List.nodup_append, hnd, hmem]

theorem reloadFor_filters (s : FMState) : (reloadFor s).filters = s.filters := by
  unfold reloadFor
  repeat' split
  all_goals rfl

theorem tagElClick_wf (s : FMState) (idx : Nat) (h : wfFilters s.filters) :
    wfFilters (tagElClick s idx).1.filters := by
  unfold tagElClick
  cases hel : s.tagEls[idx]? with
  | none => exact h
  | some el =>
    dsimp only
    obtain ⟨hbm, xs, hxs, hnd⟩ := h
    split
    · rw [hxs]
      simp only [jsIncludes, map_str_any_eqStr]
      cases hc : xs.contains el.tag with
      | true =>
        rw [applyFilters_filters, updateActiveFiltersCount_filters]
        exact ⟨hbm, xs, hxs, hnd⟩
      | false =>
        simp only [jsPushStr]
        rw [applyFilters_filters, updateActiveFiltersCount_filters]
        refine ⟨hbm, xs ++ [el.tag], ?_, nodup_append_singleton xs el.tag hnd hc⟩
        simp
    · rw [hxs]
      simp only [jsFilterNeStr, map_str_filter_eqStr]
      rw [applyFilters_filters, updateActiveFiltersCount_filters]
      exact ⟨hbm, xs.filter (· ≠ el.tag), rfl, hnd.filter _⟩

theorem baseModelElClick_wf (s : FMState) (idx : Nat) (h : wfFilters s.filters) :
    wfFilters (baseModelElClick s idx).1.filters := by
  unfold baseModelElClick
  cases hel : s.baseModelEls[idx]? with
  | none => exact h
  | some el =>
    dsimp only
    obtain ⟨⟨xs, hxs, hnd⟩, htg⟩ := h
    split
    · rw [hxs]
      simp only [jsIncludes, map_str_any_eqStr]
      cases hc : xs.contains el.tag with
      | true =>
        rw [applyFilters_filters, updateActiveFiltersCount_filters]
        exact ⟨⟨xs, hxs, hnd⟩, htg⟩
      | false =>
        simp only [jsPushStr]
        rw [applyFilters_filters, updateActiveFiltersCount_filters]
        refine ⟨⟨xs ++ [el.tag], ?_, nodup_append_singleton xs el.tag hnd hc⟩, htg⟩
        simp
    · rw [hxs]
      simp only [jsFilterNeStr, map_str_filter_eqStr]
      rw [applyFilters_filters, updateActiveFiltersCount_filters]
      exact ⟨⟨xs.filter (· ≠ el.tag), rfl, hnd.filter _⟩, htg⟩

theorem clearFilters_filters (s : FMState) :
    (clearFilters s).1.filters = emptyFiltersV := by
  unfold clearFilters
  dsimp only
  split
  · rw [updateTagSelections_filters]
  · rw [reloadFor_filters]
    rw [updateActiveFiltersCount_filters, updateTagSelections_filters]

theorem orEmptyArr_wf (p : Option JsonVal)
    (hp : match p with
      | none => True
      | some v => v.truthy = false ∨ wfField v) :
    wfField (orEmptyArr p) := by
  unfold orEmptyArr
  cases p with
  | none => exact ⟨[], rfl, List.nodup_nil⟩
  | some v =>
    dsimp only
    rcases hp with hf | hw
    · rw [hf]
      simp only [Bool.false_eq_true, if_false]
      exact ⟨[], rfl, List.nodup_nil⟩
    · obtain ⟨xs, hxs, hnd⟩ := hw
      rw [hxs]
      simp only [JsonVal.truthy, if_true]
      exact ⟨xs, rfl, hnd⟩

theorem loadFiltersFromStorage_wf (s : FMState) (h : wfFilters s.filters)
    (hst : storedOkKey s.storage (s.currentPage ++ "_filters")) :
    wfFilters (loadFiltersFromStorage s).filters := by
  unfold loadFiltersFromStorage
  dsimp only
  cases hlk : s.storage.lookup (s.currentPage ++ "_filters") with
  | none => exact h
  | some raw =>
    dsimp only
    split
    · exact h
    · cases hp : jsonParse raw with
      | none => exact h
      | some v =>
        dsimp only
        cases hbm : jsGetField v "baseModel" with
        | error e => exact h
        | ok bmv =>
          cases htg : jsGetField v "tags" with
          | error e => exact h
          | ok tgv =>
            dsimp only
            have hok := hst raw hlk v hp bmv tgv hbm htg
            split
            · rw [updateTagSelections_filters]
              exact ⟨orEmptyArr_wf bmv hok.1, orEmptyArr_wf tgv hok.2⟩
            · split
              · rw [updateActiveFiltersCount_filters, updateTagSelections_filters]
                exact ⟨orEmptyArr_wf bmv hok.1, orEmptyArr_wf tgv hok.2⟩
              · rw [updateActiveFiltersCount_filters, updateTagSelections_filters]
                exact ⟨orEmptyArr_wf bmv hok.1, orEmptyArr_wf tgv hok.2⟩

theorem constructFM_wf (page : String) (pf : Option FiltersV)
    (storage : List (String × String)) (hrm hcm : Bool)
    (hpf : ∀ f, pf = some f → wfFilters f)
    (hst : storedOkKey storage (page ++ "_filters")) :
    wfFilters (constructFM page pf storage hrm hcm).filters := by
  unfold constructFM
  apply loadFiltersFromStorage_wf
  · cases pf with
    | none => exact ⟨⟨[], rfl, List.nodup_nil⟩, ⟨[], rfl, List.nodup_nil⟩⟩
    | some f => exact hpf f rfl
  · exact hst

/-- C7 (amended): the filter fields are never null/undefined — falsy or
missing stored fields are replaced by empty arrays — and no duplicate
tag is ever added by toggling; the invariant "both fields are
duplicate-free string arrays" is preserved by both toggle handlers, by
`applyFilters`, by `clearFilters` (which establishes it outright), and
by `loadFiltersFromStorage`/construction provided every parseable
stored record's fields are each missing, falsy, or duplicate-free
string arrays.  (As the counterexample shows, a truthy non-array stored
field is adopted as-is, so the proviso on stored data cannot be
dropped.) -/
theorem filters_wf_invariant :
    (∀ (s : FMState) (idx : Nat), wfFilters s.filters →
      wfFilters (tagElClick s idx).1.filters) ∧
    (∀ (s : FMState) (idx : Nat), wfFilters s.filters →
      wfFilters (baseModelElClick s idx).1.filters) ∧
    (∀ (notify : Bool) (s : FMState), wfFilters s.filters →
      wfFilters (applyFilters notify s).filters) ∧
    (∀ s : FMState, wfFilters (clearFilters s).1.filters) ∧
    (∀ s : FMState, wfFilters s.filters →
      storedOkKey s.storage (s.currentPage ++ "_filters") →
      wfFilters (loadFiltersFromStorage s).filters) ∧
    (∀ (page : String) (pf : Option FiltersV) (storage : List (String × String))
      (hrm hcm : Bool), (∀ f, pf = some f → wfFilters f) →
      storedOkKey storage (page ++ "_filters") →
      wfFilters (constructFM page pf storage hrm hcm).filters) := by
  refine ⟨tagElClick_wf, baseModelElClick_wf, ?_, ?_, loadFiltersFromStorage_wf,
    constructFM_wf⟩
  · intro notify s h
    rw [applyFilters_filters]
    exact h
  · intro s
    rw [clearFilters_filters]
    exact ⟨⟨[], rfl, List.nodup_nil⟩, ⟨[], rfl, List.nodup_nil⟩⟩

theorem filters_wf_invariant_witness :
    wfFilters (tagElClick fmLoras 0).1.filters ∧
    wfFilters (constructFM "loras" none
      [("loras_filters", "\x7b\"tags\":[\"a\"]\x7d")] false false).filters := by
  have h := filters_wf_invariant
  constructor
  · exact h.1 fmLoras 0 ⟨⟨[], rfl, List.nodup_nil⟩, ⟨[], rfl, List.nodup_nil⟩⟩
  · refine h.2.2.2.2.2 "loras" none _ false false (fun f hf => by cases hf) ?_
    intro raw hraw v hv bmv tgv hbm htg
    have hraw2 : raw = "\x7b\"tags\":[\"a\"]\x7d" := by
      have he : (([("loras_filters", "\x7b\"tags\":[\"a\"]\x7d")] :
          List (String × String)).lookup ("loras" ++ "_filters")) =
          some "\x7b\"tags\":[\"a\"]\x7d" := rfl
      rw [he] at hraw
      exact (Option.some.inj hraw).symm
    subst hraw2
    have hv2 : v = JsonVal.obj [("tags", JsonVal.arr [JsonVal.str "a"])] := by
      have he : jsonParse "\x7b\"tags\":[\"a\"]\x7d" =
          some (JsonVal.obj [("tags", JsonVal.arr [JsonVal.str "a"])]) := rfl
      rw [he] at hv
      exact (Option.some.inj hv).symm
    subst hv2
    have hbm2 : bmv = none := by
      have he : jsGetField (JsonVal.obj [("tags", JsonVal.arr [JsonVal.str "a"])])
          "baseModel" = .ok none := rfl
      rw [he] at hbm
      exact (Except.ok.inj hbm).symm
    have htg2 : tgv = some (JsonVal.arr [JsonVal.str "a"]) := by
      have he : jsGetField (JsonVal.obj [("tags", JsonVal.arr [JsonVal.str "a"])])
          "tags" = .ok (some (JsonVal.arr [JsonVal.str "a"])) := rfl
      rw [he] at htg
      exact (Except.ok.inj htg).symm
    subst hbm2
    subst htg2
    exact ⟨trivial, Or.inr ⟨["a"], rfl, by decide⟩⟩
